import Mathlib

/-!
Verification of the qserv query-dispatch and replication core against its
natural-language specification.

Each section shallowly embeds one part of the C++ source tree
(`core/modules/query`, `core/modules/qana`, `core/modules/qproc`,
`core/modules/replica`, `core/modules/replica_core`) as executable Lean
definitions, and proves (or refutes) the specification claims about it.
Definitions are translated from the C++ source; the few places where the
deciding C++ code is not part of the examined tree are modelled from the
specification and marked `Modelled from the spec:` in their doc comments.
-/

set_option autoImplicit false

namespace Qserv

/-! ## Generic string helpers

C++ code compares `std::string` values with `==`/`empty()`; tests use
substring checks. We implement substring containment over `List Char`.
-/

/-- Whether `ns` is a prefix of `hs` (character-wise). -/
def charsPre : List Char → List Char → Bool
  | [], _ => true
  | _ :: _, [] => false
  | a :: as, b :: bs => a == b && charsPre as bs

/-- Whether `hs` contains `ns` as a contiguous substring. -/
def charsContain (ns : List Char) : List Char → Bool
  | [] => charsPre ns []
  | b :: bs => charsPre ns (b :: bs) || charsContain ns bs

/-- Whether string `haystack` contains `needle` as a contiguous substring. -/
def strContains (haystack needle : String) : Bool :=
  charsContain needle.data haystack.data

/-! ## query/ColumnRef (src/core/modules/query/ColumnRef.cc)

`ColumnRef` is a triple of strings `(db, table, column)`; empty strings model
the C++ `std::string::empty()` state ("unqualified").
-/

/-- AST column reference `(db, table, column)`, from `query/ColumnRef.h`. -/
structure ColumnRef where
  db : String
  table : String
  column : String
deriving DecidableEq, Repr

/-- Translation of `ColumnRef::matches` (ColumnRef.cc lines 67-94).  The
original returns early with `false` at each guard; the guards are kept in
source order. -/
def ColumnRef.colMatches (self rhs : ColumnRef) : Bool :=
  -- the columns can not be empty
  if self.column == "" || rhs.column == "" then false
  -- if the table is empty, the db must be empty
  else if self.table == "" && self.db != "" then false
  else if rhs.table == "" && rhs.db != "" then false
  else if (self.db != "" || rhs.db != "") && self.db != rhs.db then false
  else if (self.table != "" || rhs.table != "") && self.table != rhs.table then false
  else if self.column != rhs.column then false
  else true

/-! ## query/AndTerm (src/core/modules/query/AndTerm.cc, query/BoolTerm.h)

The `BoolTerm`/`BoolFactorTerm` class hierarchy is embedded as a pair of
mutually inductive types.  Of the `ValueFactor` variants only the ones the
verified plugins construct (column reference and constant) are included;
the remaining variants (function call, aggregate, star, subquery) are never
produced or inspected by the code paths under verification.
-/

/-- Arithmetic operator joining consecutive `ValueFactor`s of a `ValueExpr`
(`query/ValueExpr.h`). -/
inductive ValueExprOp where
  | NONE | PLUS | MINUS | MULTIPLY | DIVIDE | DIV | MOD | MODULO
  | BIT_SHIFT_LEFT | BIT_SHIFT_RIGHT | BIT_AND | BIT_OR | BIT_XOR
deriving DecidableEq, Repr

/-- `ValueFactor` variants used by the verified plugins. -/
inductive ValueFactor where
  | columnRef (ref : ColumnRef)
  | const (text : String)
deriving DecidableEq, Repr

/-- `ValueExpr`: an ordered sequence of `(ValueFactor, op)` pairs
(`query/ValueExpr.h`).  The alias field is not used by the verified code. -/
structure ValueExpr where
  factorOps : List (ValueFactor × ValueExprOp)
deriving DecidableEq, Repr

/-- `ValueFactor::newColumnRefFactor`. -/
def ValueFactor.newColumnRefFactor (ref : ColumnRef) : ValueFactor :=
  ValueFactor.columnRef ref

/-- `ValueFactor::newConstFactor`. -/
def ValueFactor.newConstFactor (text : String) : ValueFactor :=
  ValueFactor.const text

/-- `ValueExpr::newSimple`: a single factor with op `NONE`. -/
def ValueExpr.newSimple (v : ValueFactor) : ValueExpr :=
  ⟨[(v, ValueExprOp.NONE)]⟩

/-- Comparison operator token of `CompPredicate::op`.  The generated
`SqlSQL2TokenTypes` integer values are irrelevant to the claims; only the
token identity matters. -/
inductive SqlCompOp where
  | EQUALS_OP | NOT_EQUALS_OP | LESS_THAN_OP | GREATER_THAN_OP
deriving DecidableEq, Repr

mutual

/-- The `BoolTerm` hierarchy of `query/BoolTerm.h`: `AndTerm`, `OrTerm`,
`XOrTerm` (each holding `_terms : BoolTerm::PtrVector`), `BoolFactor`
(holding `_hasNot` and `_terms : BoolFactorTerm::PtrVector`) and
`UnknownTerm`. -/
inductive BoolTerm where
  | andTerm (terms : List BoolTerm)
  | orTerm (terms : List BoolTerm)
  | xorTerm (terms : List BoolTerm)
  | boolFactor (hasNot : Bool) (terms : List BoolFactorTerm)
  | unknownTerm

/-- The `BoolFactorTerm` hierarchy of `query/BoolTerm.h` together with the
`Predicate` subclasses used by the verified plugins (`NullPredicate`,
`CompPredicate` from `query/NullPredicate.h`, `query/Predicate.h`). -/
inductive BoolFactorTerm where
  | passTerm (text : String)
  | passListTerm (terms : List String)
  | boolTermFactor (term : BoolTerm)
  | nullPredicate (hasNot : Bool) (value : ValueExpr)
  | compPredicate (left : ValueExpr) (op : SqlCompOp) (right : ValueExpr)

end

/-- Result of the C++ `dynamic_cast<const AndTerm*>`: whether the dynamic
kind of a `BoolTerm` is `AndTerm`. -/
def BoolTerm.isAndTerm : BoolTerm → Bool
  | BoolTerm.andTerm _ => true
  | _ => false

/-- `MergeBehavior` of `AndTerm::merge` (`query/AndTerm.h`). -/
inductive MergeBehavior where
  | PREPEND
  | APPEND
deriving DecidableEq, Repr

/-- Translation of `AndTerm::merge(BoolTerm const&, MergeBehavior)`
(AndTerm.cc lines 51-59).  The receiver is its `_terms` vector; the result
pairs the returned `bool` with the receiver's `_terms` after the call.
`_terms.insert(startAt, other.begin, other.end)` splices the argument's
children at the front (PREPEND) or the back (APPEND). -/
def AndTerm.mergeWith (terms : List BoolTerm) (other : BoolTerm)
    (mergeBehavior : MergeBehavior) : Bool × List BoolTerm :=
  match other with
  | BoolTerm.andTerm otherTerms =>
    match mergeBehavior with
    | MergeBehavior.PREPEND => (true, otherTerms ++ terms)
    | MergeBehavior.APPEND => (true, terms ++ otherTerms)
  | _ => (false, terms)

/-- Translation of the one-argument `AndTerm::merge(BoolTerm const&)`
(AndTerm.cc lines 46-48): delegates with `APPEND`. -/
def AndTerm.mergeOne (terms : List BoolTerm) (other : BoolTerm) :
    Bool × List BoolTerm :=
  AndTerm.mergeWith terms other MergeBehavior.APPEND

/-! ## replica_core/Request (src/core/modules/replica_core/Request.cc)

The request state machine `CREATED → IN_PROGRESS → FINISHED` with its
`cancel` / `expired` / `finish` entry points.  `endProtocol()` (which invokes
the user-defined finish callback) is modelled by a counter of its
invocations; the socket/timer teardown on the `IN_PROGRESS → FINISHED` edge
has no observable effect on state or callbacks and is not modelled.
-/

/-- `Request::State` (replica_core/Request.h). -/
inductive RequestState where
  | CREATED
  | IN_PROGRESS
  | FINISHED
deriving DecidableEq, Repr

/-- `Request::ExtendedState` (replica_core/Request.h). -/
inductive RequestExtendedState where
  | NONE | SUCCESS | CLIENT_ERROR | SERVER_BAD | SERVER_ERROR
  | SERVER_QUEUED | SERVER_IN_PROGRESS | SERVER_SUSPENDED | SERVER_CANCELLED
  | EXPIRED | CANCELLED
deriving DecidableEq, Repr

/-- Observable state of a `Request`: the state pair plus the number of times
`endProtocol()` (the finish-callback dispatcher) has run. -/
structure Request where
  state : RequestState
  extendedState : RequestExtendedState
  finishNotified : Nat
deriving DecidableEq, Repr

/-- Translation of `Request::finish` (Request.cc lines 154-184): returns
immediately when already FINISHED; otherwise sets
`(FINISHED, extendedState)` and runs `endProtocol()`. -/
def Request.finish (r : Request) (extendedState : RequestExtendedState) :
    Request :=
  if r.state = RequestState.FINISHED then r
  else
    { state := RequestState.FINISHED
      extendedState := extendedState
      finishNotified := r.finishNotified + 1 }

/-- Translation of `Request::cancel` (Request.cc lines 146-152). -/
def Request.cancel (r : Request) : Request :=
  r.finish RequestExtendedState.CANCELLED

/-- Translation of `Request::expired` (Request.cc lines 132-144) for a timer
that actually fired (the `operation_aborted` early return concerns a timer
that was cancelled before firing and delivers no event). -/
def Request.expired (r : Request) : Request :=
  if r.state = RequestState.FINISHED then r
  else r.finish RequestExtendedState.EXPIRED

/-- Lifecycle events that can reach a request after creation: an external
`cancel()`, the expiration-timer firing, or a protocol completion calling
`finish(e)`. -/
inductive RequestEvent where
  | cancelEvent
  | expiredEvent
  | finishEvent (e : RequestExtendedState)

/-- Dispatch one lifecycle event. -/
def Request.step (r : Request) : RequestEvent → Request
  | RequestEvent.cancelEvent => r.cancel
  | RequestEvent.expiredEvent => r.expired
  | RequestEvent.finishEvent e => r.finish e

/-- Once FINISHED, every lifecycle event is a no-op. -/
theorem Request.step_finished (r : Request) (e : RequestEvent)
    (h : r.state = RequestState.FINISHED) : r.step e = r := by
  cases e <;> simp [Request.step, Request.cancel, Request.expired,
    Request.finish, h]

theorem Request.foldl_finished (r : Request) (evs : List RequestEvent)
    (h : r.state = RequestState.FINISHED) : evs.foldl Request.step r = r := by
  induction evs with
  | nil => rfl
  | cons e t ih => simpa [Request.step_finished r e h] using ih

/-! ## qproc/testQueryAnaOrderBy (src/core/modules/qproc/testQueryAnaOrderBy.cc)

The ORDER BY / LIMIT / aggregate behavior of the query-analysis plugin chain
is recorded by this Boost test suite: for each input statement it asserts the
exact parallel (per-chunk) sub-query, the merge sub-query ("" when no merge
statement is produced) and the proxy-side ORDER BY tail, as returned by
`QueryAnaHelper::getInternalQueries`.  The plugin implementations themselves
(qana/AggregatePlugin, qana/PostPlugin) are not part of the examined tree, so
the claims about them are settled against these recorded expectations, which
are source code of the repository.
-/

/-- One `BOOST_AUTO_TEST_CASE` of testQueryAnaOrderBy.cc: the case name, the
input statement, and the three expected internal queries passed to `check`. -/
structure QueryAnaTestCase where
  caseName : String
  stmt : String
  expectedParallel : String
  expectedMerge : String
  expectedProxyOrderBy : String
deriving DecidableEq, Repr

/-- Test case `OrderBy` (lines 76-84). -/
def caseOrderBy : QueryAnaTestCase :=
  { caseName := "OrderBy"
    stmt := "SELECT objectId, taiMidPoint FROM Source ORDER BY objectId ASC"
    expectedParallel := "SELECT objectId,taiMidPoint FROM LSST.Source_100 AS QST_1_"
    expectedMerge := ""
    expectedProxyOrderBy := "ORDER BY objectId ASC" }

/-- Test case `OrderByNotChunked` (lines 86-92). -/
def caseOrderByNotChunked : QueryAnaTestCase :=
  { caseName := "OrderByNotChunked"
    stmt := "SELECT * FROM Filter ORDER BY filterId"
    expectedParallel := "SELECT * FROM LSST.Filter AS QST_1_"
    expectedMerge := ""
    expectedProxyOrderBy := "ORDER BY filterId" }

/-- Test case `OrderByTwoField` (lines 94-102). -/
def caseOrderByTwoField : QueryAnaTestCase :=
  { caseName := "OrderByTwoField"
    stmt := "SELECT objectId, taiMidPoint FROM Source ORDER BY objectId, taiMidPoint ASC"
    expectedParallel := "SELECT objectId,taiMidPoint FROM LSST.Source_100 AS QST_1_"
    expectedMerge := ""
    expectedProxyOrderBy := "ORDER BY objectId, taiMidPoint ASC" }

/-- Test case `OrderByThreeField` (lines 104-112). -/
def caseOrderByThreeField : QueryAnaTestCase :=
  { caseName := "OrderByThreeField"
    stmt := "SELECT * FROM Source ORDER BY objectId, taiMidPoint, xFlux DESC"
    expectedParallel := "SELECT * FROM LSST.Source_100 AS QST_1_"
    expectedMerge := ""
    expectedProxyOrderBy := "ORDER BY objectId, taiMidPoint, xFlux DESC" }

/-- Test case `OrderByAggregate` (lines 114-125). -/
def caseOrderByAggregate : QueryAnaTestCase :=
  { caseName := "OrderByAggregate"
    stmt := "SELECT objectId, AVG(taiMidPoint) FROM Source GROUP BY objectId ORDER BY objectId ASC"
    expectedParallel := "SELECT objectId,COUNT(taiMidPoint) AS QS1_COUNT,SUM(taiMidPoint) AS QS2_SUM FROM LSST.Source_100 AS QST_1_ GROUP BY objectId"
    expectedMerge := "SELECT objectId,(SUM(QS2_SUM)/SUM(QS1_COUNT)) GROUP BY objectId"
    expectedProxyOrderBy := "ORDER BY objectId ASC" }

/-- Test case `OrderByAggregateNotChunked` (lines 127-136). -/
def caseOrderByAggregateNotChunked : QueryAnaTestCase :=
  { caseName := "OrderByAggregateNotChunked"
    stmt := "SELECT filterId, SUM(photClam) FROM Filter GROUP BY filterId ORDER BY filterId"
    expectedParallel := "SELECT filterId,SUM(photClam) AS QS1_SUM FROM LSST.Filter AS QST_1_ GROUP BY filterId"
    expectedMerge := "SELECT filterId,SUM(QS1_SUM) GROUP BY filterId"
    expectedProxyOrderBy := "ORDER BY filterId" }

/-- Test case `OrderByLimit` (lines 138-148). -/
def caseOrderByLimit : QueryAnaTestCase :=
  { caseName := "OrderByLimit"
    stmt := "SELECT objectId, taiMidPoint FROM Source ORDER BY objectId ASC LIMIT 5"
    expectedParallel := "SELECT objectId,taiMidPoint FROM LSST.Source_100 AS QST_1_ ORDER BY objectId ASC LIMIT 5"
    expectedMerge := "SELECT objectId,taiMidPoint ORDER BY objectId ASC LIMIT 5"
    expectedProxyOrderBy := "ORDER BY objectId ASC" }

/-- Test case `OrderByLimitNotChunked` (lines 150-159; the checked `good`
statement). -/
def caseOrderByLimitNotChunked : QueryAnaTestCase :=
  { caseName := "OrderByLimitNotChunked"
    stmt := "SELECT run FROM LSST.Science_Ccd_Exposure order by field limit 2"
    expectedParallel := "SELECT run FROM LSST.Science_Ccd_Exposure AS QST_1_ ORDER BY field LIMIT 2"
    expectedMerge := ""
    expectedProxyOrderBy := "ORDER BY field" }

/-- Test case `OrderByAggregateLimit` (lines 161-174). -/
def caseOrderByAggregateLimit : QueryAnaTestCase :=
  { caseName := "OrderByAggregateLimit"
    stmt := "SELECT objectId, AVG(taiMidPoint) FROM Source GROUP BY objectId ORDER BY objectId ASC LIMIT 2"
    expectedParallel := "SELECT objectId,COUNT(taiMidPoint) AS QS1_COUNT,SUM(taiMidPoint) AS QS2_SUM FROM LSST.Source_100 AS QST_1_ GROUP BY objectId ORDER BY objectId ASC LIMIT 2"
    expectedMerge := "SELECT objectId,(SUM(QS2_SUM)/SUM(QS1_COUNT)) GROUP BY objectId ORDER BY objectId ASC LIMIT 2"
    expectedProxyOrderBy := "ORDER BY objectId ASC" }

/-- Test case `OrderByAggregateNotChunkedLimit` (lines 176-185). -/
def caseOrderByAggregateNotChunkedLimit : QueryAnaTestCase :=
  { caseName := "OrderByAggregateNotChunkedLimit"
    stmt := "SELECT filterId, SUM(photClam) FROM Filter GROUP BY filterId ORDER BY filterId LIMIT 3"
    expectedParallel := "SELECT filterId,SUM(photClam) AS QS1_SUM FROM LSST.Filter AS QST_1_ GROUP BY filterId ORDER BY filterId LIMIT 3"
    expectedMerge := "SELECT filterId,SUM(QS1_SUM) GROUP BY filterId ORDER BY filterId LIMIT 3"
    expectedProxyOrderBy := "ORDER BY filterId" }

/-- The complete `OrderBy` test suite of testQueryAnaOrderBy.cc, in file
order. -/
def orderByTestSuite : List QueryAnaTestCase :=
  [ caseOrderBy, caseOrderByNotChunked, caseOrderByTwoField,
    caseOrderByThreeField, caseOrderByAggregate,
    caseOrderByAggregateNotChunked, caseOrderByLimit,
    caseOrderByLimitNotChunked, caseOrderByAggregateLimit,
    caseOrderByAggregateNotChunkedLimit ]

/-- Whether the input statement carries a LIMIT clause (the suite writes it
as `LIMIT` or, in one case, lowercase `limit`). -/
def QueryAnaTestCase.hasLimit (tc : QueryAnaTestCase) : Bool :=
  strContains tc.stmt "LIMIT" || strContains tc.stmt "limit"

/-- Whether the input statement carries an ORDER BY clause. -/
def QueryAnaTestCase.hasOrderBy (tc : QueryAnaTestCase) : Bool :=
  strContains tc.stmt "ORDER BY" || strContains tc.stmt "order by"

/-- Whether the input statement's SELECT list contains an aggregate
function. -/
def QueryAnaTestCase.hasAggregate (tc : QueryAnaTestCase) : Bool :=
  strContains tc.stmt "COUNT(" || strContains tc.stmt "SUM(" ||
  strContains tc.stmt "AVG(" || strContains tc.stmt "MIN(" ||
  strContains tc.stmt "MAX("

/-- Whether the query targets a chunked (partitioned) table.  The suite
names every case over a non-partitioned table `...NotChunked...`. -/
def QueryAnaTestCase.isChunked (tc : QueryAnaTestCase) : Bool :=
  !(strContains tc.caseName "NotChunked")

/-! ## qana/MatchTablePlugin (src/core/modules/qana/MatchTablePlugin.cc)
and qana/ScanTablePlugin (src/core/modules/qana/ScanTablePlugin.cc) -/

/-- A FROM-list table reference `(db, table)`.  The alias and join fields of
`query/TableRef.h` are not consulted by the verified plugins (the match-table
plugin bails out on joins before touching them) and are omitted. -/
structure TableRef where
  db : String
  table : String
deriving DecidableEq, Repr

/-- Modelled from the spec: `FromList::isJoin` (query/FromList.cc is not in
the examined tree).  Per the spec, the match-table plugin triggers only when
"the FROM list contains exactly one table" and is "never invoked on joins",
so a FROM list is a join exactly when it holds more than one table
reference. -/
def FromList.isJoin (fromList : List TableRef) : Bool :=
  decide (1 < fromList.length)

/-- `css::MatchTableParams` as consumed by the plugin: the two director
column names, the flag column name, and the catalog's verdict whether the
table is a match table (`MatchTableParams::isMatchTable()`; css/ sources are
outside the examined tree, so the verdict is carried as a field). -/
structure MatchTableParams where
  dirColName1 : String
  dirColName2 : String
  flagColName : String
  matchTable : Bool
deriving DecidableEq, Repr

/-- `MatchTableParams::isMatchTable()`. -/
def MatchTableParams.isMatchTable (mt : MatchTableParams) : Bool :=
  mt.matchTable

/-- The catalog facade `css::CssAccess` restricted to the operation the
match-table plugin uses. -/
structure CssAccess where
  getMatchTableParams : String → String → MatchTableParams

/-- `WhereClause` (query/WhereClause.h): the root boolean term plus the
qserv restrictors, together with the result of `getColumnRefs()` recorded as
a field (its caching implementation lives in query/WhereClause.cc, outside
the examined tree; only its emptiness is consulted by the scan-table
plugin). -/
structure WhereClause where
  rootTerm : Option BoolTerm
  restrictors : List String
  columnRefs : List ColumnRef

/-- A freshly constructed, empty `WhereClause`
(`std::make_shared<WhereClause>()`). -/
def WhereClause.empty : WhereClause :=
  { rootTerm := none, restrictors := [], columnRefs := [] }

/-- Modelled from the spec: `WhereClause::prependAndTerm`
(query/WhereClause.cc is not in the examined tree).  Per the spec, the new
factor is AND-prepended to the existing WHERE, and `AndTerm::merge(other,
PREPEND)` concatenates same-kind children "enabling plugins to inject
predicates without introducing extra nesting"; a non-AND root is wrapped
under a fresh AndTerm behind the new factor. -/
def WhereClause.prependAndTerm (wc : WhereClause) (t : BoolTerm) :
    WhereClause :=
  { wc with
      rootTerm := some (match wc.rootTerm with
        | some (BoolTerm.andTerm ts) => BoolTerm.andTerm (t :: ts)
        | some root => BoolTerm.andTerm [t, root]
        | none => BoolTerm.andTerm [t]) }

/-- `SelectStmt` restricted to the components the verified plugins read:
the SELECT list, the FROM list, and the optional WHERE clause. -/
structure SelectStmt where
  selectList : List ValueExpr
  fromList : List TableRef
  whereClause : Option WhereClause

/-- `SelectStmt::hasWhereClause`. -/
def SelectStmt.hasWhereClause (stmt : SelectStmt) : Bool :=
  stmt.whereClause.isSome

/-- The duplicate-elimination filter the match-table plugin builds
(MatchTablePlugin.cc lines 117-159): the `BoolFactor` holding an open-paren
`PassTerm`, a `BoolTermFactor` wrapping `OrTerm(BoolFactor(dirColName1 IS
NULL), BoolFactor(flagCol <> 2))`, and a close-paren `PassTerm`. -/
def duplicateFilter (mt : MatchTableParams) : BoolTerm :=
  BoolTerm.boolFactor false
    [ BoolFactorTerm.passTerm "(",
      BoolFactorTerm.boolTermFactor (BoolTerm.orTerm
        [ BoolTerm.boolFactor false
            [ BoolFactorTerm.nullPredicate false
                (ValueExpr.newSimple (ValueFactor.newColumnRefFactor
                  ⟨"", "", mt.dirColName1⟩)) ],
          BoolTerm.boolFactor false
            [ BoolFactorTerm.compPredicate
                (ValueExpr.newSimple (ValueFactor.newColumnRefFactor
                  ⟨"", "", mt.flagColName⟩))
                SqlCompOp.NOT_EQUALS_OP
                (ValueExpr.newSimple (ValueFactor.newConstFactor "2")) ] ]),
      BoolFactorTerm.passTerm ")" ]

/-- Translation of `MatchTablePlugin::applyLogical` (MatchTablePlugin.cc
lines 103-169).  The C++ indexes `getTableRefList()[0]` without a bounds
check; the parser never produces an empty FROM list, and the `[]` case is
returned unchanged here (the claims assume a non-empty FROM list). -/
def MatchTablePlugin.applyLogical (stmt : SelectStmt) (css : CssAccess) :
    SelectStmt :=
  if FromList.isJoin stmt.fromList then
    -- Do nothing. Match-table joins are handled by the general TablePlugin.
    stmt
  else
    match stmt.fromList with
    | [] => stmt
    | t :: _ =>
      let mt := css.getMatchTableParams t.db t.table
      if !mt.isMatchTable then stmt
      else
        let filter := duplicateFilter mt
        if stmt.hasWhereClause then
          { stmt with
              whereClause :=
                some ((stmt.whereClause.getD WhereClause.empty).prependAndTerm
                  filter) }
        else
          { stmt with
              whereClause := some (WhereClause.empty.prependAndTerm filter) }

/-- `QueryContext` restricted to the fields the scan-table plugin touches:
the chunk-count estimate and the scan-table list. -/
structure QueryContext where
  chunkCount : Nat
  scanTables : List (String × String)
deriving DecidableEq, Repr

/-- Translation of the `getPartitioned` functor + `filterPartitioned`
helper (ScanTablePlugin.cc lines 132-154): collects the `(db, table)` pair
of every FROM-list table reference, de-duplicated via the `found` set,
preserving first-occurrence order.  Despite its name it never consults the
catalog's partitioning metadata (the source carries the FIXME "Need to
resolve and see if it's a partitioned table"). -/
def filterPartitioned (tList : List TableRef) : List (String × String) :=
  (tList.foldl
    (fun (st : List (String × String) × List (String × String)) t =>
      let entry := (t.db, t.table)
      if st.2.contains entry then st
      else (st.1 ++ [entry], st.2 ++ [entry]))
    ([], [])).1

/-- Translation of `ScanTablePlugin::_findScanTables` (ScanTablePlugin.cc
lines 156-275).  `hasSelectStar` is never populated (`// FIXME
hasSelectStar is not populated right now.`) and the secondary-key detection
is compiled out (`#if 0`), so both are constantly false.  `hasSpatialSelect`
is computed but never read by any decision. -/
def ScanTablePlugin.findScanTables (stmt : SelectStmt) :
    List (String × String) :=
  let hasWhereColumnRef :=
    match stmt.whereClause with
    | some wc => !wc.columnRefs.isEmpty
    | none => false
  let selectColumnRefs :=
    stmt.selectList.foldl
      (fun acc e =>
        acc ++ e.factorOps.foldl
          (fun acc2 p =>
            match p.1 with
            | ValueFactor.columnRef c => acc2 ++ [c]
            | _ => acc2) [])
      ([] : List ColumnRef)
  let hasSelectColumnRef := !selectColumnRefs.isEmpty
  let hasSelectStar := false
  let hasSecondaryKey := false
  if hasSelectColumnRef || hasSelectStar then
    if hasSecondaryKey then []
    else filterPartitioned stmt.fromList
  else if hasWhereColumnRef then
    filterPartitioned stmt.fromList
  else []

/-- Translation of `ScanTablePlugin::applyLogical` (ScanTablePlugin.cc lines
111-116): records the scan tables in the context. -/
def ScanTablePlugin.applyLogical (stmt : SelectStmt) (ctx : QueryContext) :
    QueryContext :=
  { ctx with scanTables := ScanTablePlugin.findScanTables stmt }

/-- Translation of `ScanTablePlugin::applyFinal` (ScanTablePlugin.cc lines
118-130): with `chunkCount` below the threshold 2 the scan-table annotation
is cleared. -/
def ScanTablePlugin.applyFinal (ctx : QueryContext) : QueryContext :=
  let scanThreshold := 2
  if ctx.chunkCount < scanThreshold then { ctx with scanTables := [] }
  else ctx

/-- Modelled from the spec: the scan-table list the specification
prescribes — exactly the *partitioned* tables of the FROM list, given the
catalog's partitioning predicate.  Compared against the code's
`filterPartitioned`, which records every FROM table. -/
def specScanTables (partitioned : String → String → Bool)
    (fromList : List TableRef) : List (String × String) :=
  filterPartitioned (fromList.filter (fun t => partitioned t.db t.table))

/-! ## Theorems for claims C2, C3, C5, C7, C8, C10 -/

/-- Claim C2, counterexample: the claim states that ORDER BY is stripped from
the parallel sub-query whether or not the query carries a LIMIT; but the
`OrderByLimit` test case (testQueryAnaOrderBy.cc lines 138-148) expects the
parallel sub-query of an ORDER BY + LIMIT query to retain its ORDER BY
clause. -/
theorem orderBy_parallel_strip_counterexample :
    caseOrderByLimit ∈ orderByTestSuite ∧
    strContains caseOrderByLimit.stmt "ORDER BY" = true ∧
    caseOrderByLimit.hasLimit = true ∧
    strContains caseOrderByLimit.expectedParallel "ORDER BY" = true := by
  decide

/-- Claim C2, amended: across the whole recorded test suite, the parallel
sub-query carries an ORDER BY clause exactly when the user query carries both
an ORDER BY and a LIMIT; in particular ORDER BY is stripped from the parallel
sub-query whenever the query has no LIMIT. -/
theorem orderBy_parallel_strip_amended :
    ∀ tc ∈ orderByTestSuite,
      strContains tc.expectedParallel "ORDER BY" =
        (tc.hasLimit && tc.hasOrderBy) := by
  decide

theorem orderBy_parallel_strip_amended_witness :
    strContains caseOrderBy.expectedParallel "ORDER BY" =
      (caseOrderBy.hasLimit && caseOrderBy.hasOrderBy) :=
  orderBy_parallel_strip_amended caseOrderBy (by decide)

/-- Claim C3, counterexample: the claim states that aggregate-free queries
produce no merge statement, including those with ORDER BY and/or LIMIT; but
the `OrderByLimit` test case expects a non-empty merge statement for an
aggregate-free ORDER BY + LIMIT query over a chunked table. -/
theorem merge_aggregate_free_counterexample :
    caseOrderByLimit ∈ orderByTestSuite ∧
    caseOrderByLimit.hasAggregate = false ∧
    caseOrderByLimit.expectedMerge ≠ "" := by
  decide

/-- Claim C3, amended: across the whole recorded test suite, the merge
statement is empty exactly when the query is aggregate-free and does not
combine a LIMIT with a chunked table; an aggregate-free query with a LIMIT
over a chunked table does produce a merge statement. -/
theorem merge_statement_condition :
    ∀ tc ∈ orderByTestSuite,
      tc.expectedMerge = "" ↔
        (tc.hasAggregate = false ∧ (tc.hasLimit && tc.isChunked) = false) := by
  decide

theorem merge_statement_condition_witness :
    caseOrderBy.expectedMerge = "" ↔
      (caseOrderBy.hasAggregate = false ∧
        (caseOrderBy.hasLimit && caseOrderBy.isChunked) = false) :=
  merge_statement_condition caseOrderBy (by decide)

/-- Claim C7: every recorded query whose SELECT list contains `AVG(x)` is
rewritten to the parallel projection `COUNT(x) AS QS1_COUNT, SUM(x) AS
QS2_SUM` and the merge projection `SUM(QS2_SUM)/SUM(QS1_COUNT)`; the alias
counter starts at 1 and never reaches 3 for a single-AVG query. -/
theorem avg_rewrite_aliases :
    ∀ tc ∈ orderByTestSuite, strContains tc.stmt "AVG(" = true →
      strContains tc.expectedParallel "COUNT(taiMidPoint) AS QS1_COUNT" = true ∧
      strContains tc.expectedParallel "SUM(taiMidPoint) AS QS2_SUM" = true ∧
      strContains tc.expectedMerge "(SUM(QS2_SUM)/SUM(QS1_COUNT))" = true ∧
      strContains tc.expectedParallel "QS3_" = false ∧
      strContains tc.expectedMerge "QS3_" = false := by
  decide

theorem avg_rewrite_aliases_witness :
    strContains caseOrderByAggregate.expectedParallel
      "COUNT(taiMidPoint) AS QS1_COUNT" = true ∧
    strContains caseOrderByAggregate.expectedParallel
      "SUM(taiMidPoint) AS QS2_SUM" = true ∧
    strContains caseOrderByAggregate.expectedMerge
      "(SUM(QS2_SUM)/SUM(QS1_COUNT))" = true ∧
    strContains caseOrderByAggregate.expectedParallel "QS3_" = false ∧
    strContains caseOrderByAggregate.expectedMerge "QS3_" = false :=
  avg_rewrite_aliases caseOrderByAggregate (by decide) (by decide)

/-- Claim C5, counterexample: the claim states that an empty db qualifier is
a wildcard, so a ref with empty db should match a ref with non-empty db when
table and column agree; but `ColumnRef::matches` compares the db fields
whenever either is non-empty, so the match fails. -/
theorem columnRef_matches_wildcard_counterexample :
    ColumnRef.colMatches ⟨"", "Object", "objectId"⟩
      ⟨"LSST", "Object", "objectId"⟩ = false ∧
    (ColumnRef.mk "" "Object" "objectId").column ≠ "" ∧
    (ColumnRef.mk "LSST" "Object" "objectId").column ≠ "" ∧
    (ColumnRef.mk "LSST" "Object" "objectId").db ≠ "" := by
  decide

/-- Claim C5, amended: `ColumnRef::matches` is an equality test on
well-formed refs — it holds iff the two refs are field-wise equal, the
column is non-empty, and an empty table entails an empty db.  Empty
qualifier fields match only empty qualifier fields, never arbitrary
values. -/
theorem columnRef_matches_characterization (a b : ColumnRef) :
    ColumnRef.colMatches a b = true ↔
      (a.column ≠ "" ∧ (a.table = "" → a.db = "") ∧ a = b) := by
  rcases a with ⟨adb, atab, acol⟩
  rcases b with ⟨bdb, btab, bcol⟩
  constructor
  · intro hm
    unfold ColumnRef.colMatches at hm
    split_ifs at hm with h1 h2 h3 h4 h5 h6 <;> try exact Bool.noConfusion hm
    simp only [Bool.or_eq_true, Bool.and_eq_true, beq_iff_eq, bne_iff_ne,
      ne_eq, not_or, not_and, not_not] at h1 h2 h3 h4 h5 h6
    obtain ⟨ha, hb⟩ := h1
    have hdb : adb = bdb := by
      by_cases hx : adb = ""
      · by_cases hy : bdb = ""
        · rw [hx, hy]
        · exact h4 (Or.inr hy)
      · exact h4 (Or.inl hx)
    have htab : atab = btab := by
      by_cases hx : atab = ""
      · by_cases hy : btab = ""
        · rw [hx, hy]
        · exact h5 (Or.inr hy)
      · exact h5 (Or.inl hx)
    refine ⟨ha, fun ht => h2 ht, ?_⟩
    simp [ColumnRef.mk.injEq, hdb, htab, h6]
  · rintro ⟨hcol, htab, heq⟩
    injection heq with e1 e2 e3
    subst e1; subst e2; subst e3
    by_cases ht : atab = ""
    · have hd : adb = "" := htab ht
      simp [ColumnRef.colMatches, hcol, ht, hd]
    · simp [ColumnRef.colMatches, hcol, ht]

theorem columnRef_matches_characterization_witness :
    ColumnRef.colMatches ⟨"LSST", "Object", "objectId"⟩
        ⟨"LSST", "Object", "objectId"⟩ = true ↔
      ((ColumnRef.mk "LSST" "Object" "objectId").column ≠ "" ∧
        ((ColumnRef.mk "LSST" "Object" "objectId").table = "" →
          (ColumnRef.mk "LSST" "Object" "objectId").db = "") ∧
        (ColumnRef.mk "LSST" "Object" "objectId") =
          (ColumnRef.mk "LSST" "Object" "objectId")) :=
  columnRef_matches_characterization _ _

/-- Claim C8: starting from any request that is not yet FINISHED and has
never notified its callback, any non-empty sequence of cancel / expiration /
finish events leaves the request FINISHED with the finish callback invoked
exactly once, and a further `cancel()` on the FINISHED request is a no-op
(state, extended state and notification count unchanged). -/
theorem request_finish_exactly_once (r : Request) (evs : List RequestEvent)
    (hstate : r.state ≠ RequestState.FINISHED)
    (hnotified : r.finishNotified = 0)
    (hevs : evs ≠ []) :
    (evs.foldl Request.step r).state = RequestState.FINISHED ∧
    (evs.foldl Request.step r).finishNotified = 1 ∧
    (evs.foldl Request.step r).cancel = evs.foldl Request.step r := by
  cases evs with
  | nil => exact absurd rfl hevs
  | cons e t =>
    have h1 : (Request.step r e).state = RequestState.FINISHED ∧
        (Request.step r e).finishNotified = 1 := by
      cases e <;>
        simp [Request.step, Request.cancel, Request.expired, Request.finish,
          hstate, hnotified]
    have h2 := Request.foldl_finished (Request.step r e) t h1.1
    rw [List.foldl_cons, h2]
    refine ⟨h1.1, h1.2, ?_⟩
    simp [Request.cancel, Request.finish, h1.1]

theorem request_finish_exactly_once_witness :
    (([RequestEvent.finishEvent RequestExtendedState.SUCCESS,
       RequestEvent.cancelEvent, RequestEvent.expiredEvent].foldl
        Request.step ⟨RequestState.CREATED, RequestExtendedState.NONE, 0⟩).state
      = RequestState.FINISHED ∧
     ([RequestEvent.finishEvent RequestExtendedState.SUCCESS,
       RequestEvent.cancelEvent, RequestEvent.expiredEvent].foldl
        Request.step
        ⟨RequestState.CREATED, RequestExtendedState.NONE, 0⟩).finishNotified
      = 1 ∧
     ([RequestEvent.finishEvent RequestExtendedState.SUCCESS,
       RequestEvent.cancelEvent, RequestEvent.expiredEvent].foldl
        Request.step
        ⟨RequestState.CREATED, RequestExtendedState.NONE, 0⟩).cancel
      = [RequestEvent.finishEvent RequestExtendedState.SUCCESS,
         RequestEvent.cancelEvent, RequestEvent.expiredEvent].foldl
          Request.step ⟨RequestState.CREATED, RequestExtendedState.NONE, 0⟩) :=
  request_finish_exactly_once
    ⟨RequestState.CREATED, RequestExtendedState.NONE, 0⟩
    [RequestEvent.finishEvent RequestExtendedState.SUCCESS,
     RequestEvent.cancelEvent, RequestEvent.expiredEvent]
    (by decide) rfl (by simp)

/-- Claim C10: `AndTerm::merge` returns false and leaves the receiver's
child-term list unchanged whenever the argument's dynamic kind is not
`AndTerm` (for both the one-argument form and either `MergeBehavior`), and
when the argument is an `AndTerm` its children are spliced at the chosen
end. -/
theorem andTerm_merge_requires_andTerm (ts os : List BoolTerm)
    (other : BoolTerm) (mb : MergeBehavior) (h : other.isAndTerm = false) :
    AndTerm.mergeWith ts other mb = (false, ts) ∧
    AndTerm.mergeOne ts other = (false, ts) ∧
    AndTerm.mergeWith ts (BoolTerm.andTerm os) MergeBehavior.PREPEND
      = (true, os ++ ts) ∧
    AndTerm.mergeWith ts (BoolTerm.andTerm os) MergeBehavior.APPEND
      = (true, ts ++ os) := by
  refine ⟨?_, ?_, rfl, rfl⟩ <;>
    cases other <;>
      simp_all [AndTerm.mergeWith, AndTerm.mergeOne, BoolTerm.isAndTerm]

theorem andTerm_merge_requires_andTerm_witness :
    AndTerm.mergeWith [BoolTerm.unknownTerm] (BoolTerm.orTerm [])
        MergeBehavior.PREPEND = (false, [BoolTerm.unknownTerm]) ∧
    AndTerm.mergeOne [BoolTerm.unknownTerm] (BoolTerm.orTerm [])
      = (false, [BoolTerm.unknownTerm]) ∧
    AndTerm.mergeWith [BoolTerm.unknownTerm]
        (BoolTerm.andTerm [BoolTerm.unknownTerm]) MergeBehavior.PREPEND
      = (true, [BoolTerm.unknownTerm] ++ [BoolTerm.unknownTerm]) ∧
    AndTerm.mergeWith [BoolTerm.unknownTerm]
        (BoolTerm.andTerm [BoolTerm.unknownTerm]) MergeBehavior.APPEND
      = (true, [BoolTerm.unknownTerm] ++ [BoolTerm.unknownTerm]) :=
  andTerm_merge_requires_andTerm [BoolTerm.unknownTerm]
    [BoolTerm.unknownTerm] (BoolTerm.orTerm []) MergeBehavior.PREPEND rfl

/-! ## Theorems for claims C4 and C6 -/

/-- Claim C4: for a single-table (non-join) FROM list whose table the
catalog reports as a match table, `MatchTablePlugin::applyLogical`
AND-prepends the parenthesized boolean factor `(dirColName1 IS NULL OR
flagCol <> 2)` (see `duplicateFilter`) to the WHERE clause, creating one if
absent, and leaves the original WHERE root reachable intact underneath; for
joins and for non-match tables the statement is unchanged. -/
theorem matchTablePlugin_applyLogical_spec
    (stmt : SelectStmt) (css : CssAccess) (t : TableRef)
    (rest : List TableRef) (hfrom : stmt.fromList = t :: rest) :
    (FromList.isJoin stmt.fromList = true →
      MatchTablePlugin.applyLogical stmt css = stmt) ∧
    (FromList.isJoin stmt.fromList = false →
      ((css.getMatchTableParams t.db t.table).isMatchTable = false →
        MatchTablePlugin.applyLogical stmt css = stmt) ∧
      ((css.getMatchTableParams t.db t.table).isMatchTable = true →
        (MatchTablePlugin.applyLogical stmt css).selectList = stmt.selectList ∧
        (MatchTablePlugin.applyLogical stmt css).fromList = stmt.fromList ∧
        (MatchTablePlugin.applyLogical stmt css).whereClause =
          some ((stmt.whereClause.getD WhereClause.empty).prependAndTerm
            (duplicateFilter (css.getMatchTableParams t.db t.table))) ∧
        (match stmt.whereClause with
          | none =>
            ((MatchTablePlugin.applyLogical stmt css).whereClause.map
              WhereClause.rootTerm) =
              some (some (BoolTerm.andTerm
                [duplicateFilter (css.getMatchTableParams t.db t.table)]))
          | some wc =>
            match wc.rootTerm with
            | some (BoolTerm.andTerm ts) =>
              ((MatchTablePlugin.applyLogical stmt css).whereClause.map
                WhereClause.rootTerm) =
                some (some (BoolTerm.andTerm
                  (duplicateFilter (css.getMatchTableParams t.db t.table)
                    :: ts)))
            | some root =>
              ((MatchTablePlugin.applyLogical stmt css).whereClause.map
                WhereClause.rootTerm) =
                some (some (BoolTerm.andTerm
                  [duplicateFilter (css.getMatchTableParams t.db t.table),
                   root]))
            | none =>
              ((MatchTablePlugin.applyLogical stmt css).whereClause.map
                WhereClause.rootTerm) =
                some (some (BoolTerm.andTerm
                  [duplicateFilter (css.getMatchTableParams t.db t.table)]))))) := by
  obtain ⟨sl, fl, wcl⟩ := stmt
  simp only at hfrom
  subst hfrom
  constructor
  · intro hj
    simp [MatchTablePlugin.applyLogical, hj]
  · intro hnj
    constructor
    · intro hnm
      simp [MatchTablePlugin.applyLogical, hnj, hnm]
    · intro hm
      rcases wcl with _ | wc
      · simp [MatchTablePlugin.applyLogical, hnj, hm,
          SelectStmt.hasWhereClause, WhereClause.prependAndTerm,
          WhereClause.empty]
      · rcases wc with ⟨rt, rs, crs⟩
        rcases rt with _ | root
        · simp [MatchTablePlugin.applyLogical, hnj, hm,
            SelectStmt.hasWhereClause, WhereClause.prependAndTerm]
        · cases root <;>
            simp [MatchTablePlugin.applyLogical, hnj, hm,
              SelectStmt.hasWhereClause, WhereClause.prependAndTerm]

/-- Catalog facade for the witness: every table is a match table with
director column `refObjectId` and flag column `refFlags`. -/
def mtWitnessCss : CssAccess :=
  ⟨fun _ _ => ⟨"refObjectId", "objectId", "refFlags", true⟩⟩

/-- Witness statement: a single-table query on a match table with no WHERE
clause. -/
def mtWitnessStmt : SelectStmt :=
  { selectList := [], fromList := [⟨"LSST", "RefObjMatch"⟩],
    whereClause := none }

theorem matchTablePlugin_applyLogical_spec_witness :
    (MatchTablePlugin.applyLogical mtWitnessStmt mtWitnessCss).whereClause =
      some ((mtWitnessStmt.whereClause.getD WhereClause.empty).prependAndTerm
        (duplicateFilter
          (mtWitnessCss.getMatchTableParams "LSST" "RefObjMatch"))) :=
  (((matchTablePlugin_applyLogical_spec mtWitnessStmt mtWitnessCss
      ⟨"LSST", "RefObjMatch"⟩ [] rfl).2 rfl).2 rfl).2.2.1

/-- The statement of the failing input for claim C6: `SELECT filterId FROM
LSST.Filter` — a column reference in the SELECT list, a single
non-partitioned table in the FROM list, no WHERE clause. -/
def scanBugStmt : SelectStmt :=
  { selectList :=
      [ValueExpr.newSimple (ValueFactor.newColumnRefFactor
        ⟨"", "", "filterId"⟩)],
    fromList := [⟨"LSST", "Filter"⟩],
    whereClause := none }

/-- Catalog partitioning predicate for the failing input: `LSST.Filter` is a
regular (non-partitioned) table. -/
def regularOnlyCatalog : String → String → Bool := fun _ _ => false

/-- Claim C6: evaluation at the failing input.  With `chunkCount = 2` (at
the threshold) and a column-reference SELECT over the non-partitioned table
`LSST.Filter`, the code leaves `("LSST", "Filter")` in `ctx.scanTables` —
`filterPartitioned` records every FROM table without consulting the
partitioning metadata — whereas the specified scan-table set (the
partitioned FROM tables only, `specScanTables`) is empty.  The
below-threshold clause of the claim does hold: with `chunkCount = 1` the
annotation is cleared. -/
theorem scanTablePlugin_partitioned_divergence :
    (ScanTablePlugin.applyFinal
        (ScanTablePlugin.applyLogical scanBugStmt
          { chunkCount := 2, scanTables := [] })).scanTables
      = [("LSST", "Filter")] ∧
    specScanTables regularOnlyCatalog scanBugStmt.fromList = [] ∧
    (ScanTablePlugin.applyFinal
        (ScanTablePlugin.applyLogical scanBugStmt
          { chunkCount := 1, scanTables := [] })).scanTables
      = [] := by
  decide

/-! ## replica/ReplicateJob (src/core/modules/replica/ReplicateJob.cc)

`ReplicateJob::onPrecursorJobFinish` (lines 170-434) analyzes the precursor
`FindAllJob` result and builds the replication plan.  `std::map`s are
embedded as association lists iterated in list order (a `std::map` iterates
in ascending key order; none of the verified properties depend on the
iteration order).  `std::map::operator[]` with its default value is
`getCount` / `getChunksOf`; the throwing `std::map::at` is an `Option`
lookup, with a lookup miss modelled as the `exception` outcome.
-/

/-- `Job::ExtendedState` (replica/Job.h). -/
inductive JobExtendedState where
  | NONE | SUCCESS | FAILED | QSERV_FAILED | CANCELLED | CONFIG_ERROR
deriving DecidableEq, Repr

/-- The fields of `FindAllJobResult` consumed by
`ReplicateJob::onPrecursorJobFinish`: `isGood[chunk][worker]`,
`chunks[chunk][database]` (the workers holding any replica), and
`workers[worker]` (whether the worker succeeded, i.e. is not FAILED). -/
structure FindAllJobResult where
  isGood : List (Nat × List (String × Bool))
  chunks : List (Nat × List (String × List String))
  workers : List (String × Bool)
deriving DecidableEq, Repr

/-- The configuration values the planner reads: the configured worker list
and `workerNumProcessingThreads`. -/
structure ReplicateConfig where
  workers : List String
  workerNumProcessingThreads : Nat
deriving DecidableEq, Repr

/-- `std::map<std::string, size_t>` read through `operator[]` (default 0). -/
def getCount (m : List (String × Nat)) (k : String) : Nat :=
  match m.find? (fun p => p.1 == k) with
  | some p => p.2
  | none => 0

/-- `m[k]++` on a `std::map<std::string, size_t>`: bump the counter,
creating the entry at 0 first when absent. -/
def bumpCount (m : List (String × Nat)) (k : String) : List (String × Nat) :=
  if m.any (fun p => p.1 == k) then
    m.map (fun p => if p.1 == k then (p.1, p.2 + 1) else p)
  else m ++ [(k, 1)]

/-- `worker2chunks[w]` (default: empty set). -/
def getChunksOf (m : List (String × List Nat)) (k : String) : List Nat :=
  match m.find? (fun p => p.1 == k) with
  | some p => p.2
  | none => []

/-- `worker2chunks[w].insert(c)`. -/
def addChunkTo (m : List (String × List Nat)) (k : String) (c : Nat) :
    List (String × List Nat) :=
  if m.any (fun p => p.1 == k) then
    m.map (fun p =>
      if p.1 == k then (p.1, if p.2.contains c then p.2 else p.2 ++ [c])
      else p)
  else m ++ [(k, [c])]

/-- `std::map::at` on `isGood` (throws on a missing chunk). -/
def lookupIsGood (isGood : List (Nat × List (String × Bool))) (c : Nat) :
    Option (List (String × Bool)) :=
  (isGood.find? (fun p => p.1 == c)).map (fun p => p.2)

/-- ReplicateJob.cc lines 224-234: the number of extra replicas to create
for each chunk whose `isGood` entry holds fewer than `numReplicas`
replicas. -/
def chunk2numReplicas2create (numReplicas : Nat)
    (isGood : List (Nat × List (String × Bool))) : List (Nat × Nat) :=
  isGood.filterMap (fun p =>
    if p.2.length < numReplicas then some (p.1, numReplicas - p.2.length)
    else none)

/-- ReplicateJob.cc lines 244-255: occupancy counter of every worker holding
a replica in good standing. -/
def worker2occupancy (isGood : List (Nat × List (String × Bool))) :
    List (String × Nat) :=
  isGood.foldl
    (fun m p => p.2.foldl
      (fun m2 e => if e.2 then bumpCount m2 e.1 else m2) m)
    []

/-- ReplicateJob.cc lines 264-276: the per-worker set of chunks of which the
worker already holds a replica (in any state, for any database of the
family). -/
def worker2chunks (chunks : List (Nat × List (String × List String))) :
    List (String × List Nat) :=
  chunks.foldl
    (fun m p => p.2.foldl
      (fun m2 q => q.2.foldl (fun m3 w => addChunkTo m3 w p.1) m2) m)
    []

/-- ReplicateJob.cc lines 282-287: the white list of configured workers not
reported FAILED by the precursor; `replicaData.workers.at(worker)` throws
when a configured worker is missing from the result, yielding `none`. -/
def whiteListWorkers (cfg : ReplicateConfig) (res : FindAllJobResult) :
    Option (List String) :=
  cfg.workers.foldr
    (fun w acc =>
      match acc with
      | none => none
      | some l =>
        match res.workers.find? (fun p => p.1 == w) with
        | none => none
        | some p => some (if p.2 then w :: l else l))
    (some [])

/-- ReplicateJob.cc lines 304-307: `sourceWorkerAllocations`, zero for every
configured worker. -/
def initSourceAllocations (cfg : ReplicateConfig) : List (String × Nat) :=
  cfg.workers.map (fun w => (w, 0))

/-- ReplicateJob.cc lines 319-332: find the least-used source worker holding
a replica in good standing ("" / `none` when there is none).  The C++ scans
the chunk's `isGood` map with `minAllocations` starting at the maximum
`size_t`, so the first good worker is always taken and later good workers
replace it only with strictly fewer allocations. -/
def selectSourceWorker (alloc : List (String × Nat))
    (entries : List (String × Bool)) : Option String :=
  (entries.foldl
    (fun (st : Option (String × Nat)) e =>
      if e.2 then
        let a := getCount alloc e.1
        match st with
        | none => some (e.1, a)
        | some s => if a < s.2 then some (e.1, a) else some s
      else st)
    none).map (fun s => s.1)

/-- ReplicateJob.cc lines 354-370: find the destination worker — the
white-listed worker with the fewest good chunks among those not already
holding any replica of the chunk (`none` when every candidate is
excluded). -/
def selectDestinationWorker (whitelist : List String)
    (w2c : List (String × List Nat)) (occ : List (String × Nat))
    (chunk : Nat) : Option String :=
  (whitelist.foldl
    (fun (st : Option (String × Nat)) w =>
      if (getChunksOf w2c w).contains chunk then st
      else
        match st with
        | none => some (w, getCount occ w)
        | some s =>
          if getCount occ w < s.2 then some (w, getCount occ w) else some s)
    none).map (fun s => s.1)

/-- ReplicateJob.cc lines 349-401: the inner loop creating
`numReplicas2create` jobs for one chunk, bumping the destination occupancy
and the source allocation after each created job.  `none` models the
"no suitable destination worker" early `finish(FAILED)`. -/
def planChunkReplicas (whitelist : List String)
    (w2c : List (String × List Nat)) (chunk : Nat) (src : String) :
    Nat → List (String × Nat) → List (String × Nat) →
    List (Nat × String × String) →
    Option (List (String × Nat) × List (String × Nat) ×
      List (Nat × String × String))
  | 0, occ, alloc, jobs => some (occ, alloc, jobs)
  | n + 1, occ, alloc, jobs =>
    match selectDestinationWorker whitelist w2c occ chunk with
    | none => none
    | some dst =>
      planChunkReplicas whitelist w2c chunk src n
        (bumpCount occ dst) (bumpCount alloc src)
        (jobs ++ [(chunk, src, dst)])

/-- Outcome of the planning phase over the chunk list. -/
inductive PlanResult where
  | exceptionRaised
  | planFailed
  | planned (jobs : List (Nat × String × String))
deriving DecidableEq, Repr

/-- ReplicateJob.cc lines 311-402: the outer loop over the chunks needing
new replicas.  Each iteration selects the source worker from the chunk's
`isGood` entry (early `finish(FAILED)` when none is good) and then plans the
chunk's new replicas (early `finish(FAILED)` when a destination is
missing). -/
def planAllChunks (isGood : List (Nat × List (String × Bool)))
    (whitelist : List String) (w2c : List (String × List Nat)) :
    List (Nat × Nat) → List (String × Nat) → List (String × Nat) →
    List (Nat × String × String) → PlanResult
  | [], _, _, jobs => PlanResult.planned jobs
  | (chunk, n) :: rest, occ, alloc, jobs =>
    match lookupIsGood isGood chunk with
    | none => PlanResult.exceptionRaised
    | some entries =>
      match selectSourceWorker alloc entries with
      | none => PlanResult.planFailed
      | some src =>
        match planChunkReplicas whitelist w2c chunk src n occ alloc jobs with
        | none => PlanResult.planFailed
        | some (occ2, alloc2, jobs2) =>
          planAllChunks isGood whitelist w2c rest occ2 alloc2 jobs2

/-- Observable outcome of `ReplicateJob::onPrecursorJobFinish`. -/
inductive PrecursorOutcome where
  | exceptionRaised
  | finishedWith (extendedState : JobExtendedState)
  | launchedPlan (jobs : List (Nat × String × String))
deriving DecidableEq, Repr

/-- Translation of `ReplicateJob::onPrecursorJobFinish` (ReplicateJob.cc
lines 170-434) up to (and excluding) the launching of the first batch:
precursor failure and the empty white list finish the job FAILED; an empty
plan finishes it SUCCESS; otherwise the planned jobs are launched. -/
def onPrecursorJobFinish (cfg : ReplicateConfig) (numReplicas : Nat)
    (precursorExtendedState : JobExtendedState) (res : FindAllJobResult) :
    PrecursorOutcome :=
  if precursorExtendedState ≠ JobExtendedState.SUCCESS then
    PrecursorOutcome.finishedWith JobExtendedState.FAILED
  else
    let c2n := chunk2numReplicas2create numReplicas res.isGood
    let occ := worker2occupancy res.isGood
    let w2c := worker2chunks res.chunks
    match whiteListWorkers cfg res with
    | none => PrecursorOutcome.exceptionRaised
    | some whitelist =>
      if whitelist.isEmpty then
        PrecursorOutcome.finishedWith JobExtendedState.FAILED
      else
        match planAllChunks res.isGood whitelist w2c c2n occ
            (initSourceAllocations cfg) [] with
        | PlanResult.exceptionRaised => PrecursorOutcome.exceptionRaised
        | PlanResult.planFailed =>
          PrecursorOutcome.finishedWith JobExtendedState.FAILED
        | PlanResult.planned [] =>
          PrecursorOutcome.finishedWith JobExtendedState.SUCCESS
        | PlanResult.planned jobs => PrecursorOutcome.launchedPlan jobs

/-! ## Theorems for claim C9 -/

/-- Helper: with `Nodup` keys, `find?` by key returns the member itself. -/
theorem find?_key_unique {α : Type} (l : List (Nat × α)) (p : Nat × α)
    (hnd : (l.map Prod.fst).Nodup) (hp : p ∈ l) :
    l.find? (fun q => q.1 == p.1) = some p := by
  induction l with
  | nil => cases hp
  | cons h t ih =>
    rcases List.mem_cons.mp hp with rfl | hmem
    · simp [List.find?]
    · have hne : h.1 ≠ p.1 := by
        intro he
        have : p.1 ∈ t.map Prod.fst := List.mem_map_of_mem Prod.fst hmem
        rw [← he] at this
        exact (List.nodup_cons.mp hnd).1 this
      have hb : (h.1 == p.1) = false := by simpa using hne
      simp only [List.find?, hb]
      exact ih (List.nodup_cons.mp hnd).2 hmem

theorem selectSourceWorker_none (alloc : List (String × Nat))
    (entries : List (String × Bool)) (h : ∀ e ∈ entries, e.2 = false) :
    selectSourceWorker alloc entries = none := by
  suffices hs : ∀ st : Option (String × Nat), st = none →
      entries.foldl
        (fun st e =>
          if e.2 then
            let a := getCount alloc e.1
            match st with
            | none => some (e.1, a)
            | some s => if a < s.2 then some (e.1, a) else some s
          else st) st = none by
    simp [selectSourceWorker, hs none rfl]
  induction entries with
  | nil => intro st hst; simpa using hst
  | cons e t ih =>
    intro st hst
    have he : e.2 = false := h e (List.mem_cons_self e t)
    simp only [List.foldl_cons, he]
    exact ih (fun x hx => h x (List.mem_cons_of_mem e hx)) st hst

theorem whiteList_foldr_isSome (res : FindAllJobResult) (ws : List String)
    (hcov : ∀ w ∈ ws, (res.workers.find? (fun p => p.1 == w)).isSome) :
    (ws.foldr
      (fun w acc =>
        match acc with
        | none => none
        | some l =>
          match res.workers.find? (fun p => p.1 == w) with
          | none => none
          | some p => some (if p.2 then w :: l else l))
      (some [])).isSome := by
  induction ws with
  | nil => simp
  | cons w t ih =>
    have h1 := hcov w (List.mem_cons_self w t)
    obtain ⟨p, hp⟩ := Option.isSome_iff_exists.mp h1
    have h2 := ih (fun x hx => hcov x (List.mem_cons_of_mem w hx))
    obtain ⟨l, hl⟩ := Option.isSome_iff_exists.mp h2
    simp only [List.foldr_cons, hl, hp]
    rfl

theorem whiteListWorkers_isSome (cfg : ReplicateConfig)
    (res : FindAllJobResult)
    (hcov : ∀ w ∈ cfg.workers,
      (res.workers.find? (fun p => p.1 == w)).isSome) :
    (whiteListWorkers cfg res).isSome :=
  whiteList_foldr_isSome res cfg.workers hcov

theorem planAllChunks_failed (isGood : List (Nat × List (String × Bool)))
    (whitelist : List String) (w2c : List (String × List Nat)) :
    ∀ (createList : List (Nat × Nat)) (occ alloc : List (String × Nat))
      (jobs : List (Nat × String × String)),
      (∀ q ∈ createList, (lookupIsGood isGood q.1).isSome) →
      (∃ q ∈ createList, ∃ entries, lookupIsGood isGood q.1 = some entries ∧
        ∀ e ∈ entries, e.2 = false) →
      planAllChunks isGood whitelist w2c createList occ alloc jobs =
        PlanResult.planFailed := by
  intro createList
  induction createList with
  | nil =>
    intro occ alloc jobs _ hbad
    obtain ⟨q, hq, _⟩ := hbad
    cases hq
  | cons head rest ih =>
    intro occ alloc jobs hsub hbad
    obtain ⟨c, n⟩ := head
    have hhead := hsub (c, n) (List.mem_cons_self _ _)
    obtain ⟨entries0, he0⟩ := Option.isSome_iff_exists.mp hhead
    rcases hbad with ⟨q, hqmem, entries, hlk, hbadall⟩
    rcases List.mem_cons.mp hqmem with rfl | hqrest
    · have hee : entries0 = entries := Option.some.inj (he0.symm.trans hlk)
      subst hee
      simp [planAllChunks, he0,
        selectSourceWorker_none alloc entries0 hbadall]
    · simp only [planAllChunks, he0]
      cases hsrc : selectSourceWorker alloc entries0 with
      | none => rfl
      | some src =>
        cases hplan :
            planChunkReplicas whitelist w2c c src n occ alloc jobs with
        | none => simp [hplan]
        | some triple =>
          obtain ⟨occ2, alloc2, jobs2⟩ := triple
          simp only [hplan]
          exact ih occ2 alloc2 jobs2
            (fun x hx => hsub x (List.mem_cons_of_mem _ hx))
            ⟨q, hqrest, entries, hlk, hbadall⟩

/-- Claim C9: whenever some chunk of the precursor result is
under-replicated (its `isGood` entry holds fewer than `numReplicas`
replicas) and no worker holds a replica of it in good standing,
`ReplicateJob::onPrecursorJobFinish` finishes the job FAILED — never
SUCCESS, never a launched plan, and never an exception (given the
`FindAllJob` invariants that `isGood` is keyed uniquely by chunk and that
every configured worker appears in the result's worker map). -/
theorem replicateJob_no_good_source_failed
    (cfg : ReplicateConfig) (numReplicas : Nat) (pre : JobExtendedState)
    (res : FindAllJobResult)
    (hkeys : (res.isGood.map Prod.fst).Nodup)
    (hcov : ∀ w ∈ cfg.workers,
      (res.workers.find? (fun p => p.1 == w)).isSome)
    (hbad : ∃ p ∈ res.isGood, p.2.length < numReplicas ∧
      ∀ e ∈ p.2, e.2 = false) :
    onPrecursorJobFinish cfg numReplicas pre res =
      PrecursorOutcome.finishedWith JobExtendedState.FAILED := by
  by_cases hpre : pre = JobExtendedState.SUCCESS
  · obtain ⟨wl, hwl⟩ :=
      Option.isSome_iff_exists.mp (whiteListWorkers_isSome cfg res hcov)
    obtain ⟨p, hp, hlen, hball⟩ := hbad
    have hq : (p.1, numReplicas - p.2.length) ∈
        chunk2numReplicas2create numReplicas res.isGood := by
      refine List.mem_filterMap.mpr ⟨p, hp, ?_⟩
      simp [hlen]
    have hlkp : lookupIsGood res.isGood p.1 = some p.2 := by
      unfold lookupIsGood
      rw [find?_key_unique res.isGood p hkeys hp]
      rfl
    have hsub : ∀ q ∈ chunk2numReplicas2create numReplicas res.isGood,
        (lookupIsGood res.isGood q.1).isSome := by
      intro q hqm
      obtain ⟨a, ha, hfa⟩ := List.mem_filterMap.mp hqm
      have hq1 : q.1 = a.1 := by
        by_cases hcase : a.2.length < numReplicas
        · simp [hcase] at hfa
          rw [← hfa]
        · simp [hcase] at hfa
      unfold lookupIsGood
      rw [hq1]
      have : (res.isGood.find? (fun r => r.1 == a.1)).isSome := by
        rw [List.find?_isSome]
        exact ⟨a, ha, by simp⟩
      obtain ⟨b, hb⟩ := Option.isSome_iff_exists.mp this
      simp [hb]
    have hfail := planAllChunks_failed res.isGood wl
      (worker2chunks res.chunks)
      (chunk2numReplicas2create numReplicas res.isGood)
      (worker2occupancy res.isGood) (initSourceAllocations cfg) []
      hsub
      ⟨(p.1, numReplicas - p.2.length), hq, p.2, hlkp, hball⟩
    by_cases hempty : wl.isEmpty
    · simp [onPrecursorJobFinish, hpre, hwl, hempty]
    · simp [onPrecursorJobFinish, hpre, hwl, hempty, hfail]
  · simp [onPrecursorJobFinish, hpre]

theorem replicateJob_no_good_source_failed_witness :
    onPrecursorJobFinish ⟨["worker-1", "worker-2"], 4⟩ 2
      JobExtendedState.SUCCESS
      { isGood := [(42, [("worker-1", false)])],
        chunks := [(42, [("LSST", ["worker-1"])])],
        workers := [("worker-1", true), ("worker-2", true)] }
      = PrecursorOutcome.finishedWith JobExtendedState.FAILED :=
  replicateJob_no_good_source_failed ⟨["worker-1", "worker-2"], 4⟩ 2
    JobExtendedState.SUCCESS
    { isGood := [(42, [("worker-1", false)])],
      chunks := [(42, [("LSST", ["worker-1"])])],
      workers := [("worker-1", true), ("worker-2", true)] }
    (by decide) (by decide) (by decide)

/-! ## replica/DatabaseServicesMySQL
(src/core/modules/replica/DatabaseServicesMySQL.cc)

The persisted replica inventory is the `replica` table (UNIQUE(worker,
database, chunk)) with its cascading `replica_file` child rows; it is
embedded as a list of `ReplicaRow`s carrying their file rows.  SQL effects
are modelled on that list: INSERT appends, the keyed DELETE filters, the
duplicate-key error fires exactly when a row with the same key is present.
Transactions never fail in the model (the claim is about calls that return
successfully; on exception the C++ rolls back and throws).
-/

/-- `ReplicaInfo::Status` (replica/ReplicaInfo.h). -/
inductive ReplicaStatus where
  | NOT_FOUND | CORRUPT | INCOMPLETE | COMPLETE
deriving DecidableEq, Repr

/-- `ReplicaInfo::FileInfo` (replica/ReplicaInfo.h). -/
structure FileInfo where
  name : String
  size : Nat
  mtime : Nat
  cs : String
  beginTransferTime : Nat
  endTransferTime : Nat
  inSize : Nat
deriving DecidableEq, Repr

/-- `ReplicaInfo` (replica/ReplicaInfo.h). -/
structure ReplicaInfo where
  status : ReplicaStatus
  worker : String
  database : String
  chunk : Nat
  verifyTime : Nat
  fileInfo : List FileInfo
deriving DecidableEq, Repr

/-- One row of the `replica_file` table as written by `saveReplicaInfoImpl`
(DatabaseServicesMySQL.cc lines 491-501): name, size, mtime, cs and the
transfer times; `inSize` is not persisted. -/
structure StoredFile where
  name : String
  size : Nat
  mtime : Nat
  cs : String
  beginCreateTime : Nat
  endCreateTime : Nat
deriving DecidableEq, Repr

/-- One row of the `replica` table together with its cascading
`replica_file` rows. -/
structure ReplicaRow where
  worker : String
  database : String
  chunk : Nat
  verifyTime : Nat
  files : List StoredFile
deriving DecidableEq, Repr

/-- The persisted state of the `replica` table. -/
abbrev DbState := List ReplicaRow

/-- The `replica_file` insert of `saveReplicaInfoImpl`. -/
def storeFile (f : FileInfo) : StoredFile :=
  { name := f.name, size := f.size, mtime := f.mtime, cs := f.cs,
    beginCreateTime := f.beginTransferTime,
    endCreateTime := f.endTransferTime }

/-- The `replica` + `replica_file` inserts of `saveReplicaInfoImpl`
(lines 483-501). -/
def mkRow (info : ReplicaInfo) : ReplicaRow :=
  { worker := info.worker, database := info.database, chunk := info.chunk,
    verifyTime := info.verifyTime, files := info.fileInfo.map storeFile }

/-- Whether a row carries the key `(w, d, c)`. -/
def rowHasKey (w d : String) (c : Nat) (r : ReplicaRow) : Bool :=
  r.worker == w && r.database == d && r.chunk == c

/-- Translation of `deleteReplicaInfoImpl` (lines 664-672): the keyed DELETE
(cascading to the file rows, which live inside the row here). -/
def deleteReplicaInfoImpl (db : DbState) (w d : String) (c : Nat) : DbState :=
  db.filter (fun r => !(rowHasKey w d c r))

/-- Whether the `replica` table already holds a row with the replica's key
(this is what makes the INSERT of `saveReplicaInfoImpl` raise
`DuplicateKeyError`, the table being UNIQUE(worker, database, chunk)). -/
def hasReplicaRow (db : DbState) (w d : String) (c : Nat) : Bool :=
  db.any (rowHasKey w d c)

/-- Translation of `saveReplicaInfoImpl` (lines 472-521): a COMPLETE replica
is inserted — on `DuplicateKeyError` the existing row is deleted and the
insert retried — and a non-COMPLETE replica is *deleted* ("Try inserting if
the replica is complete. Delete otherwise."). -/
def saveReplicaInfoImpl (db : DbState) (info : ReplicaInfo) : DbState :=
  if info.status = ReplicaStatus.COMPLETE then
    if hasReplicaRow db info.worker info.database info.chunk then
      -- DuplicateKeyError: delete the replica, then insert again
      deleteReplicaInfoImpl db info.worker info.database info.chunk
        ++ [mkRow info]
    else db ++ [mkRow info]
  else deleteReplicaInfoImpl db info.worker info.database info.chunk

/-- The read-back of a `replica_file` row (lines 860-898): `inSize` is set
to the stored size. -/
def readFile (s : StoredFile) : FileInfo :=
  { name := s.name, size := s.size, mtime := s.mtime, cs := s.cs,
    beginTransferTime := s.beginCreateTime,
    endTransferTime := s.endCreateTime, inSize := s.size }

/-- The read-back of a `replica` row (lines 900-909): the status of every
persisted replica is reported as COMPLETE. -/
def readRow (r : ReplicaRow) : ReplicaInfo :=
  { status := ReplicaStatus.COMPLETE, worker := r.worker,
    database := r.database, chunk := r.chunk, verifyTime := r.verifyTime,
    fileInfo := r.files.map readFile }

/-- The row filter of `findWorkerReplicasImpl` (lines 746-777): rows of the
worker, restricted to the database when one is given. -/
def findScopeRow (w d : String) (r : ReplicaRow) : Bool :=
  r.worker == w && (d == "" || r.database == d)

/-- Translation of `findWorkerReplicasImpl` (lines 746-777) as used with a
known worker and database: the SELECT over the replica table scoped to the
worker (and database when non-empty), each row read back with its files. -/
def findWorkerReplicasImpl (db : DbState) (w d : String) :
    List ReplicaInfo :=
  (db.filter (findScopeRow w d)).map readRow

/-- The key a replica is grouped under by `WorkerDatabaseChunkMap`. -/
abbrev RKey := String × String × Nat

/-- `ReplicaInfo.key`. -/
def ReplicaInfo.rkey (r : ReplicaInfo) : RKey :=
  (r.worker, r.database, r.chunk)

/-- `ReplicaRow.key`. -/
def ReplicaRow.rkey (r : ReplicaRow) : RKey :=
  (r.worker, r.database, r.chunk)

/-- Insert-or-overwrite on the association list modelling a
`WorkerDatabaseChunkMap` (assignment through
`atWorker(...).atDatabase(...).atChunk(...)`). -/
def upsertReplica (m : List (RKey × ReplicaInfo)) (k : RKey)
    (v : ReplicaInfo) : List (RKey × ReplicaInfo) :=
  if m.any (fun p => p.1 == k) then
    m.map (fun p => if p.1 == k then (k, v) else p)
  else m ++ [(k, v)]

/-- Lines 539-548: group the new replicas by key, ignoring replicas outside
the `(worker, database)` scope. -/
def groupNewReplicas (w d : String) (coll : List ReplicaInfo) :
    List (RKey × ReplicaInfo) :=
  coll.foldl
    (fun m r =>
      if r.worker == w && r.database == d then upsertReplica m r.rkey r
      else m)
    []

/-- Lines 555-568: fetch the persisted replicas of the scope and group them
by key. -/
def groupOldReplicas (db : DbState) (w d : String) :
    List (RKey × ReplicaInfo) :=
  (findWorkerReplicasImpl db w d).foldl
    (fun m r => upsertReplica m r.rkey r) []

/-- Modelled from the spec: `ReplicaInfo::operator!=` is declared in
replica/ReplicaInfo.h, outside the examined tree.  Per the spec (step 6 of
`saveReplicaInfoCollection`) the in-both comparison "deep-compare[s] file
lists (name+size+mtime+checksum)". -/
def fileCmpKey (f : FileInfo) : String × Nat × Nat × String :=
  (f.name, f.size, f.mtime, f.cs)

/-- Modelled from the spec: inequality of two replicas as used by the
in-both pass — the deep comparison of the file lists on
name+size+mtime+checksum. -/
def replicaNe (a b : ReplicaInfo) : Bool :=
  !(a.fileInfo.map fileCmpKey == b.fileInfo.map fileCmpKey)

/-- `SemanticMaps::intersect(newReplicas, oldReplicas, inBoth)` (line 577):
the new-map entries whose key also occurs in the old map. -/
def inBothOf (newReplicas oldReplicas : List (RKey × ReplicaInfo)) :
    List (RKey × ReplicaInfo) :=
  newReplicas.filter (fun p => oldReplicas.any (fun q => q.1 == p.1))

/-- `SemanticMaps::diff2` (line 583), new-only half. -/
def inNewOnlyOf (newReplicas oldReplicas : List (RKey × ReplicaInfo)) :
    List (RKey × ReplicaInfo) :=
  newReplicas.filter (fun p => !(oldReplicas.any (fun q => q.1 == p.1)))

/-- `SemanticMaps::diff2` (line 583), old-only half. -/
def inOldOnlyOf (newReplicas oldReplicas : List (RKey × ReplicaInfo)) :
    List (RKey × ReplicaInfo) :=
  oldReplicas.filter (fun p => !(newReplicas.any (fun q => q.1 == p.1)))

/-- Lines 597-607: eliminate outdated replicas — delete every key only
present in the old state. -/
def applyOldDeletes (db : DbState) (entries : List (RKey × ReplicaInfo)) :
    DbState :=
  entries.foldl (fun s p => deleteReplicaInfoImpl s p.1.1 p.1.2.1 p.1.2.2) db

/-- Lines 615-626: insert (via `saveReplicaInfoImpl`) every replica only
present in the new collection. -/
def applyNewInserts (db : DbState) (entries : List (RKey × ReplicaInfo)) :
    DbState :=
  entries.foldl (fun s p => saveReplicaInfoImpl s p.2) db

/-- Lines 635-658: deep comparison of the replicas in the intersect area —
look up the old replica of the key, and delete-then-save when the new one
differs. -/
def applyInBothUpdates (db : DbState)
    (oldReplicas entries : List (RKey × ReplicaInfo)) : DbState :=
  entries.foldl
    (fun s p =>
      match oldReplicas.find? (fun q => q.1 == p.1) with
      | some q =>
        if replicaNe p.2 q.2 then
          saveReplicaInfoImpl
            (deleteReplicaInfoImpl s p.1.1 p.1.2.1 p.1.2.2) p.2
        else s
      | none => s)
    db

/-- Translation of `saveReplicaInfoCollectionImpl` (lines 523-662): group
the scoped new replicas and the persisted old replicas by key; delete the
keys only present in the old state; save the replicas only present in the
new collection; for keys present in both, compare and delete-then-save when
different. -/
def saveReplicaInfoCollectionImpl (db : DbState) (w d : String)
    (coll : List ReplicaInfo) : DbState :=
  let newReplicas := groupNewReplicas w d coll
  let oldReplicas := groupOldReplicas db w d
  applyInBothUpdates
    (applyNewInserts
      (applyOldDeletes db (inOldOnlyOf newReplicas oldReplicas))
      (inNewOnlyOf newReplicas oldReplicas))
    oldReplicas
    (inBothOf newReplicas oldReplicas)

/-- `saveReplicaInfoCollection` (lines 449-470) wraps the implementation in
the connection transaction; `findWorkerReplicas` (lines 732-744) wraps
`findWorkerReplicasImpl` in the lock. -/
def saveReplicaInfoCollection (db : DbState) (w d : String)
    (coll : List ReplicaInfo) : DbState :=
  saveReplicaInfoCollectionImpl db w d coll

/-- The projection the claim compares: the chunk together with the
name+size+mtime+checksum view of the file list (worker and database are
fixed by the scope; `verifyTime`, the transfer times and `inSize` are either
not persisted or rewritten on read-back). -/
def replicaView (r : ReplicaInfo) : Nat × List (String × Nat × Nat × String) :=
  (r.chunk, r.fileInfo.map fileCmpKey)

/-- A COMPLETE replica with one file, used to exercise the amended C1
invariant at a concrete input. -/
def c1CompleteReplica : ReplicaInfo :=
  { status := ReplicaStatus.COMPLETE, worker := "w1", database := "db1",
    chunk := 7, verifyTime := 3,
    fileInfo := [{ name := "chunk_7.txt", size := 10, mtime := 5,
                   cs := "abc", beginTransferTime := 1,
                   endTransferTime := 2, inSize := 9 }] }

/-- An INCOMPLETE replica in the saved scope: `saveReplicaInfoImpl` deletes
it instead of inserting it. -/
def c1IncompleteReplica : ReplicaInfo :=
  { status := ReplicaStatus.INCOMPLETE, worker := "w1", database := "db1",
    chunk := 7, verifyTime := 3, fileInfo := [] }

/-- The rows of the replica table carrying the key `(w, d, c)`. -/
def rowsFor (db : DbState) (w d : String) (c : Nat) : List ReplicaRow :=
  db.filter (rowHasKey w d c)

theorem rowHasKey_iff (w d : String) (c : Nat) (r : ReplicaRow) :
    rowHasKey w d c r = true ↔ r.rkey = (w, d, c) := by
  simp [rowHasKey, ReplicaRow.rkey, Prod.ext_iff, and_assoc]

theorem rowsFor_delete_same (db : DbState) (w d : String) (c : Nat) :
    rowsFor (deleteReplicaInfoImpl db w d c) w d c = [] := by
  refine List.filter_eq_nil_iff.mpr ?_
  intro r hr
  have := List.of_mem_filter hr
  simp only [Bool.not_eq_true'] at this
  simp [this]

theorem rowsFor_delete_other (db : DbState) (w d w' d' : String)
    (c c' : Nat) (h : (w, d, c) ≠ (w', d', c')) :
    rowsFor (deleteReplicaInfoImpl db w' d' c') w d c = rowsFor db w d c := by
  unfold rowsFor deleteReplicaInfoImpl
  rw [List.filter_filter]
  refine List.filter_congr ?_
  intro r _
  by_cases hk : rowHasKey w d c r = true
  · have h1 : r.rkey = (w, d, c) := (rowHasKey_iff w d c r).mp hk
    have h2 : rowHasKey w' d' c' r = false := by
      rw [Bool.eq_false_iff]
      intro hcontra
      exact h (h1 ▸ (rowHasKey_iff w' d' c' r).mp hcontra)
    simp [hk, h2]
  · simp [Bool.eq_false_iff.mpr hk]

theorem rowsFor_append (db1 db2 : DbState) (w d : String) (c : Nat) :
    rowsFor (db1 ++ db2) w d c = rowsFor db1 w d c ++ rowsFor db2 w d c := by
  simp [rowsFor, List.filter_append]

theorem rowsFor_save_same (db : DbState) (info : ReplicaInfo)
    (w d : String) (c : Nat) (h : info.rkey = (w, d, c)) :
    rowsFor (saveReplicaInfoImpl db info) w d c =
      if info.status = ReplicaStatus.COMPLETE then [mkRow info] else [] := by
  obtain ⟨hw, hd, hc⟩ : info.worker = w ∧ info.database = d ∧ info.chunk = c := by
    simpa [ReplicaInfo.rkey, Prod.ext_iff] using h
  subst hw; subst hd; subst hc
  have hmk : rowHasKey info.worker info.database info.chunk (mkRow info) = true := by
    simp [rowHasKey, mkRow]
  unfold saveReplicaInfoImpl
  by_cases hst : info.status = ReplicaStatus.COMPLETE
  · rw [if_pos hst]
    by_cases hdup : hasReplicaRow db info.worker info.database info.chunk = true
    · rw [if_pos hdup, rowsFor_append, rowsFor_delete_same]
      simp [rowsFor, List.filter, hmk, hst]
    · rw [if_neg hdup, rowsFor_append]
      have hnil : rowsFor db info.worker info.database info.chunk = [] := by
        refine List.filter_eq_nil_iff.mpr ?_
        intro r hr hkey
        exact hdup (List.any_eq_true.mpr ⟨r, hr, hkey⟩)
      rw [hnil]
      simp [rowsFor, List.filter, hmk, hst]
  · rw [if_neg hst, rowsFor_delete_same]
    simp [hst]

theorem rowsFor_save_other (db : DbState) (info : ReplicaInfo)
    (w d : String) (c : Nat) (h : (w, d, c) ≠ info.rkey) :
    rowsFor (saveReplicaInfoImpl db info) w d c = rowsFor db w d c := by
  have hmk : rowHasKey w d c (mkRow info) = false := by
    rw [Bool.eq_false_iff]
    intro hcontra
    have : (mkRow info).rkey = (w, d, c) := (rowHasKey_iff w d c _).mp hcontra
    exact h (by simpa [mkRow, ReplicaRow.rkey, ReplicaInfo.rkey] using this.symm)
  have hdel : rowsFor (deleteReplicaInfoImpl db info.worker info.database
      info.chunk) w d c = rowsFor db w d c :=
    rowsFor_delete_other db w d info.worker info.database c info.chunk
      (by simpa [ReplicaInfo.rkey] using h)
  unfold saveReplicaInfoImpl
  by_cases hst : info.status = ReplicaStatus.COMPLETE
  · rw [if_pos hst]
    by_cases hdup : hasReplicaRow db info.worker info.database info.chunk = true
    · rw [if_pos hdup, rowsFor_append, hdel]
      simp [rowsFor, List.filter, hmk]
    · rw [if_neg hdup, rowsFor_append]
      simp [rowsFor, List.filter, hmk]
  · rw [if_neg hst]
    exact hdel

/-- Generic fold engine: folding key-local steps over entries with `Nodup`
keys.  Each step touches exactly the rows of its entry's key, either
replacing them (`eff e = some rows`) or leaving the state unchanged
(`eff e = none`). -/
theorem rowsFor_foldl {β : Type} (step : DbState → β → DbState)
    (keyOf : β → RKey) (eff : β → Option (List ReplicaRow)) :
    ∀ (es : List β),
      (∀ (s : DbState) (e : β), e ∈ es → ∀ (w d : String) (c : Nat),
        rowsFor (step s e) w d c =
          if keyOf e = (w, d, c) then (eff e).getD (rowsFor s w d c)
          else rowsFor s w d c) →
      ((es.map keyOf).Nodup) →
      ∀ (s : DbState) (w d : String) (c : Nat),
        rowsFor (es.foldl step s) w d c =
          match es.find? (fun e => keyOf e == (w, d, c)) with
          | some e => (eff e).getD (rowsFor s w d c)
          | none => rowsFor s w d c := by
  intro es
  induction es with
  | nil => intro _ _ s w d c; rfl
  | cons e t ih =>
    intro hstep hnd s w d c
    have hstep_e := hstep s e (List.mem_cons_self e t) w d c
    by_cases hk : keyOf e = (w, d, c)
    · -- the head touches the key; no tail entry touches it again
      have hkeq : (keyOf e == (w, d, c)) = true := by simpa using hk
      have hnotin : ∀ x ∈ t, keyOf x ≠ (w, d, c) := by
        intro x hx he
        have : keyOf e ∈ t.map keyOf := by
          rw [hk, ← he]
          exact List.mem_map_of_mem keyOf hx
        exact (List.nodup_cons.mp hnd).1 (hk ▸ this)
      have hfind : t.find? (fun x => keyOf x == (w, d, c)) = none := by
        rw [List.find?_eq_none]
        intro x hx
        simpa using hnotin x hx
      rw [List.foldl_cons,
        ih (fun s2 x hx => hstep s2 x (List.mem_cons_of_mem e hx))
          (List.nodup_cons.mp hnd).2 (step s e) w d c,
        hfind]
      simp only [List.find?, hkeq]
      rw [hstep_e, if_pos hk]
    · have hkeq : (keyOf e == (w, d, c)) = false := by simpa using hk
      rw [List.foldl_cons,
        ih (fun s2 x hx => hstep s2 x (List.mem_cons_of_mem e hx))
          (List.nodup_cons.mp hnd).2 (step s e) w d c]
      simp only [List.find?, hkeq]
      rw [hstep_e, if_neg hk]

theorem upsert_absent (m : List (RKey × ReplicaInfo)) (k : RKey)
    (v : ReplicaInfo) (h : m.any (fun p => p.1 == k) = false) :
    upsertReplica m k v = m ++ [(k, v)] := by
  simp [upsertReplica, h]

theorem foldl_filter_step {α β : Type} (p : α → Bool) (f : β → α → β) :
    ∀ (l : List α) (acc : β),
      l.foldl (fun m r => if p r then f m r else m) acc =
        (l.filter p).foldl f acc := by
  intro l
  induction l with
  | nil => intro acc; rfl
  | cons r t ih =>
    intro acc
    by_cases hp : p r = true
    · simp [List.foldl_cons, List.filter, hp, ih]
    · simp [List.foldl_cons, List.filter,
        Bool.eq_false_iff.mpr hp, ih]

theorem foldl_upsert_map :
    ∀ (l : List ReplicaInfo) (acc : List (RKey × ReplicaInfo)),
      (((acc ++ l.map (fun r => (r.rkey, r))).map Prod.fst).Nodup) →
      l.foldl (fun m r => upsertReplica m r.rkey r) acc =
        acc ++ l.map (fun r => (r.rkey, r)) := by
  intro l
  induction l with
  | nil => intro acc _; simp
  | cons r t ih =>
    intro acc hnd
    rw [List.map_append] at hnd
    have hdisj := (List.nodup_append.mp hnd).2.2
    have habs : acc.any (fun p => p.1 == r.rkey) = false := by
      rw [Bool.eq_false_iff]
      intro hcontra
      obtain ⟨p, hpmem, hpk⟩ := List.any_eq_true.mp hcontra
      have hpk2 : p.1 = r.rkey := by simpa using hpk
      have h1 : p.1 ∈ acc.map Prod.fst := List.mem_map_of_mem Prod.fst hpmem
      have h2 : r.rkey ∈ ((r :: t).map (fun x => (x.rkey, x))).map Prod.fst := by
        rw [List.map_map]
        exact List.mem_map_of_mem _ (List.mem_cons_self r t)
      exact hdisj h1 (hpk2 ▸ h2)
    rw [List.foldl_cons, upsert_absent acc r.rkey r habs]
    have hre : (acc ++ [(r.rkey, r)]) ++ t.map (fun x => (x.rkey, x)) =
        acc ++ (r :: t).map (fun x => (x.rkey, x)) := by
      simp
    refine (ih (acc ++ [(r.rkey, r)]) ?_).trans hre
    rw [hre, List.map_append]
    exact hnd

theorem groupNewReplicas_eq (w d : String) (coll : List ReplicaInfo)
    (hnd : (((coll.filter (fun r => r.worker == w && r.database == d)).map
      ReplicaInfo.rkey).Nodup)) :
    groupNewReplicas w d coll =
      (coll.filter (fun r => r.worker == w && r.database == d)).map
        (fun r => (r.rkey, r)) := by
  unfold groupNewReplicas
  rw [foldl_filter_step (fun r => r.worker == w && r.database == d)
    (fun m r => upsertReplica m r.rkey r) coll []]
  have hfold := foldl_upsert_map
    (coll.filter (fun r => r.worker == w && r.database == d)) []
    (by rw [List.nil_append, List.map_map]; exact hnd)
  rw [List.nil_append] at hfold
  exact hfold

theorem groupOldReplicas_eq (db : DbState) (w d : String)
    (hnd : (((db.filter (findScopeRow w d)).map ReplicaRow.rkey).Nodup)) :
    groupOldReplicas db w d =
      (db.filter (findScopeRow w d)).map
        (fun row => ((readRow row).rkey, readRow row)) := by
  unfold groupOldReplicas findWorkerReplicasImpl
  have hfold := foldl_upsert_map ((db.filter (findScopeRow w d)).map readRow) []
    (by
      have h1 : (((db.filter (findScopeRow w d)).map readRow).map
          (fun r => (r.rkey, r))).map Prod.fst =
          (db.filter (findScopeRow w d)).map ReplicaRow.rkey := by
        rw [List.map_map, List.map_map]; rfl
      simpa [h1] using hnd)
  rw [List.nil_append] at hfold
  rw [hfold, List.map_map]
  rfl

/-- Generic: with `Nodup` keys, `find?` by an element's key returns that
element. -/
theorem find?_unique_key {κ β : Type} [BEq κ] [LawfulBEq κ]
    (keyOf : β → κ) :
    ∀ (l : List β) (e : β), ((l.map keyOf).Nodup) → e ∈ l →
      l.find? (fun x => keyOf x == keyOf e) = some e := by
  intro l
  induction l with
  | nil => intro e _ he; cases he
  | cons h t ih =>
    intro e hnd he
    rcases List.mem_cons.mp he with rfl | hmem
    · simp [List.find?]
    · have hne : keyOf h ≠ keyOf e := by
        intro hcontra
        have : keyOf e ∈ t.map keyOf := List.mem_map_of_mem keyOf hmem
        rw [← hcontra] at this
        exact (List.nodup_cons.mp hnd).1 this
      have hb : (keyOf h == keyOf e) = false := by simpa using hne
      simp only [List.find?, hb]
      exact ih e (List.nodup_cons.mp hnd).2 hmem

theorem find?_none_key {κ β : Type} [BEq κ] [LawfulBEq κ]
    (keyOf : β → κ) (l : List β) (k : κ)
    (h : ∀ x ∈ l, keyOf x ≠ k) :
    l.find? (fun x => keyOf x == k) = none := by
  rw [List.find?_eq_none]
  intro x hx
  simpa using h x hx

/-- With a concrete database (`d ≠ ""`), the key-`(w, d, c)` rows are
exactly the scope rows of chunk `c`. -/
theorem rowsFor_scope (db : DbState) (w d : String) (c : Nat)
    (hd : d ≠ "") :
    rowsFor db w d c =
      (db.filter (findScopeRow w d)).filter (fun row => row.chunk == c) := by
  unfold rowsFor
  rw [List.filter_filter]
  refine List.filter_congr ?_
  intro row _
  have hdb : (d == "") = false := by simpa using hd
  simp only [rowHasKey, findScopeRow, hdb, Bool.false_or]
  by_cases h1 : row.worker == w
  · by_cases h2 : row.database == d
    · by_cases h3 : row.chunk == c <;> simp [h1, h2, h3]
    · simp [h1, Bool.eq_false_iff.mpr h2]
  · simp [Bool.eq_false_iff.mpr h1]

/-- `replicaView` survives the persist + read-back round trip. -/
theorem replicaView_read_mk (r : ReplicaInfo) :
    replicaView (readRow (mkRow r)) = replicaView r := by
  have hfiles : ∀ l : List FileInfo,
      ((l.map storeFile).map readFile).map fileCmpKey = l.map fileCmpKey := by
    intro l
    induction l with
    | nil => rfl
    | cons f t ih =>
      simp only [List.map_cons]
      rw [ih]
      rfl
  show (r.chunk, ((r.fileInfo.map storeFile).map readFile).map fileCmpKey) =
    (r.chunk, r.fileInfo.map fileCmpKey)
  rw [hfiles]

theorem readRow_rkey (row : ReplicaRow) :
    (readRow row).rkey = row.rkey := rfl

/-- Uniqueness of the chunk-`c` element of the scoped new collection. -/
theorem filter_chunk_unique_info (l : List ReplicaInfo)
    (hnd : ((l.map ReplicaInfo.chunk).Nodup)) (r : ReplicaInfo)
    (hr : r ∈ l) :
    l.filter (fun x => x.chunk == r.chunk) = [r] := by
  induction l with
  | nil => cases hr
  | cons h t ih =>
    rcases List.mem_cons.mp hr with rfl | hmem
    · have hnone : t.filter (fun x => x.chunk == r.chunk) = [] := by
        refine List.filter_eq_nil_iff.mpr ?_
        intro x hx hkey
        have hxc : x.chunk = r.chunk := by simpa using hkey
        have : r.chunk ∈ t.map ReplicaInfo.chunk := by
          rw [← hxc]
          exact List.mem_map_of_mem ReplicaInfo.chunk hx
        exact (List.nodup_cons.mp hnd).1 this
      simp [List.filter, hnone]
    · have hne : h.chunk ≠ r.chunk := by
        intro hcontra
        have : r.chunk ∈ t.map ReplicaInfo.chunk :=
          List.mem_map_of_mem ReplicaInfo.chunk hmem
        rw [← hcontra] at this
        exact (List.nodup_cons.mp hnd).1 this
      have hb : (h.chunk == r.chunk) = false := by simpa using hne
      simp only [List.filter, hb]
      exact ih (List.nodup_cons.mp hnd).2 hmem

/-- Uniqueness of the chunk-`c` row among the scoped persisted rows. -/
theorem filter_chunk_unique_row (l : List ReplicaRow) (w d : String)
    (hscope : ∀ row ∈ l, row.worker = w ∧ row.database = d)
    (hnd : ((l.map ReplicaRow.rkey).Nodup)) (row0 : ReplicaRow)
    (hr : row0 ∈ l) :
    l.filter (fun x => x.chunk == row0.chunk) = [row0] := by
  induction l with
  | nil => cases hr
  | cons h t ih =>
    have hkeychunk : ∀ x ∈ h :: t, ∀ y ∈ h :: t, x.chunk = y.chunk →
        x.rkey = y.rkey := by
      intro x hx y hy hxy
      obtain ⟨hxw, hxd⟩ := hscope x hx
      obtain ⟨hyw, hyd⟩ := hscope y hy
      simp [ReplicaRow.rkey, hxw, hxd, hyw, hyd, hxy]
    rcases List.mem_cons.mp hr with rfl | hmem
    · have hnone : t.filter (fun x => x.chunk == row0.chunk) = [] := by
        refine List.filter_eq_nil_iff.mpr ?_
        intro x hx hkey
        have hxc : x.chunk = row0.chunk := by simpa using hkey
        have hxk : x.rkey = row0.rkey :=
          hkeychunk x (List.mem_cons_of_mem _ hx) row0
            (List.mem_cons_self _ _) hxc
        have : row0.rkey ∈ t.map ReplicaRow.rkey := by
          rw [← hxk]
          exact List.mem_map_of_mem ReplicaRow.rkey hx
        exact (List.nodup_cons.mp hnd).1 this
      simp [List.filter, hnone]
    · have hne : h.chunk ≠ row0.chunk := by
        intro hcontra
        have hk : h.rkey = row0.rkey :=
          hkeychunk h (List.mem_cons_self _ _) row0
            (List.mem_cons_of_mem _ hmem) hcontra
        have : row0.rkey ∈ t.map ReplicaRow.rkey :=
          List.mem_map_of_mem ReplicaRow.rkey hmem
        rw [← hk] at this
        exact (List.nodup_cons.mp hnd).1 this
      have hb : (h.chunk == row0.chunk) = false := by simpa using hne
      simp only [List.filter, hb]
      exact ih (fun x hx => hscope x (List.mem_cons_of_mem _ hx))
        (List.nodup_cons.mp hnd).2 hmem

theorem map_fst_pair (l : List ReplicaInfo) :
    (l.map (fun r => (r.rkey, r))).map Prod.fst = l.map ReplicaInfo.rkey := by
  induction l with
  | nil => rfl
  | cons r t ih => simp only [List.map_cons]; rw [ih]

theorem map_sndrkey_pair (l : List ReplicaInfo) :
    (l.map (fun r => (r.rkey, r))).map (fun p => p.2.rkey) =
      l.map ReplicaInfo.rkey := by
  induction l with
  | nil => rfl
  | cons r t ih => simp only [List.map_cons]; rw [ih]

theorem map_fst_oldpair (l : List ReplicaRow) :
    (l.map (fun row => ((readRow row).rkey, readRow row))).map Prod.fst =
      l.map ReplicaRow.rkey := by
  induction l with
  | nil => rfl
  | cons row t ih => simp only [List.map_cons]; rw [ih]; rfl

theorem map_rkey_chunk (l : List ReplicaInfo) :
    l.map ReplicaInfo.chunk =
      (l.map ReplicaInfo.rkey).map (fun k => k.2.2) := by
  induction l with
  | nil => rfl
  | cons r t ih => simp only [List.map_cons]; rw [ih]; rfl

theorem filter_chunk_map_read (c : Nat) :
    ∀ l : List ReplicaRow,
      (l.map readRow).filter (fun r => r.chunk == c) =
        (l.filter (fun row => row.chunk == c)).map readRow := by
  intro l
  induction l with
  | nil => rfl
  | cons row t ih =>
    by_cases hc : (row.chunk == c) = true
    · simp only [List.map_cons, List.filter_cons]
      rw [ih]
      simp [hc, readRow]
    · simp only [List.map_cons, List.filter_cons]
      rw [ih]
      simp [hc, readRow, Bool.eq_false_iff.mpr hc]

theorem find?_unique_key2 {κ β : Type} [BEq κ] [LawfulBEq κ]
    (keyOf : β → κ) (l : List β) (e : β) (k : κ)
    (hnd : ((l.map keyOf).Nodup)) (he : e ∈ l) (hk : keyOf e = k) :
    l.find? (fun x => keyOf x == k) = some e := by
  subst hk
  exact find?_unique_key keyOf l e hnd he

theorem saveColl_view (db : DbState) (w d : String) (coll : List ReplicaInfo)
    (SN : List ReplicaInfo) (SO : List ReplicaRow)
    (hSNdef : SN = coll.filter (fun r => r.worker == w && r.database == d))
    (hSOdef : SO = db.filter (findScopeRow w d))
    (hd : d ≠ "")
    (hdb : ((db.map ReplicaRow.rkey).Nodup))
    (hstatus : ∀ r ∈ coll, r.worker = w → r.database = d →
      r.status = ReplicaStatus.COMPLETE)
    (hchunks : ((SN.map ReplicaInfo.chunk).Nodup))
    (c : Nat) :
    (rowsFor (saveReplicaInfoCollectionImpl db w d coll) w d c).map
        (fun row => replicaView (readRow row)) =
      (SN.filter (fun r => r.chunk == c)).map replicaView := by
  -- key-list facts
  have hSNkeys : (SN.map ReplicaInfo.rkey).Nodup := by
    have h := hchunks
    rw [map_rkey_chunk] at h
    exact List.Nodup.of_map _ h
  have hSOkeys : (SO.map ReplicaRow.rkey).Nodup := by
    rw [hSOdef]
    exact List.Nodup.sublist (List.Sublist.map _ (List.filter_sublist db)) hdb
  -- scope membership facts
  have hSNmem : ∀ r ∈ SN, r.worker = w ∧ r.database = d ∧
      r.status = ReplicaStatus.COMPLETE := by
    intro r hr
    rw [hSNdef] at hr
    have hm := List.mem_of_mem_filter hr
    have hs0 := List.of_mem_filter hr
    have hs : (r.worker == w && r.database == d) = true := hs0
    simp only [Bool.and_eq_true, beq_iff_eq] at hs
    exact ⟨hs.1, hs.2, hstatus r hm hs.1 hs.2⟩
  have hSNrkey : ∀ r ∈ SN, r.rkey = (w, d, r.chunk) := by
    intro r hr
    obtain ⟨h1, h2, _⟩ := hSNmem r hr
    simp [ReplicaInfo.rkey, h1, h2]
  have hdfalse : (d == "") = false := by simpa using hd
  have hSOmem : ∀ row ∈ SO, row.worker = w ∧ row.database = d := by
    intro row hrow
    rw [hSOdef] at hrow
    have hs0 := List.of_mem_filter hrow
    have hs : findScopeRow w d row = true := hs0
    simp only [findScopeRow, hdfalse, Bool.false_or, Bool.and_eq_true,
      beq_iff_eq] at hs
    exact hs
  have hSOrkey : ∀ row ∈ SO, row.rkey = (w, d, row.chunk) := by
    intro row hrow
    obtain ⟨h1, h2⟩ := hSOmem row hrow
    simp [ReplicaRow.rkey, h1, h2]
  -- unfold the pipeline and name the grouped maps
  simp only [saveReplicaInfoCollectionImpl]
  set nM := groupNewReplicas w d coll with hnM
  set oM := groupOldReplicas db w d with hoM
  have hnMeq : nM = SN.map (fun r => (r.rkey, r)) := by
    rw [hnM, hSNdef]
    exact groupNewReplicas_eq w d coll (by rw [← hSNdef]; exact hSNkeys)
  have hoMeq : oM = SO.map (fun row => ((readRow row).rkey, readRow row)) := by
    rw [hoM, hSOdef]
    exact groupOldReplicas_eq db w d (by rw [← hSOdef]; exact hSOkeys)
  have hnMkeys : (nM.map Prod.fst).Nodup := by
    rw [hnMeq, map_fst_pair]
    exact hSNkeys
  have hoMkeys : (oM.map Prod.fst).Nodup := by
    rw [hoMeq, map_fst_oldpair]
    exact hSOkeys
  have hnMmemEx : ∀ p ∈ nM, ∃ r ∈ SN, p = (r.rkey, r) := by
    intro p hp
    rw [hnMeq] at hp
    obtain ⟨r, hr, hfr⟩ := List.mem_map.mp hp
    exact ⟨r, hr, hfr.symm⟩
  have hnMmem2 : ∀ r ∈ SN, (r.rkey, r) ∈ nM := by
    intro r hr
    rw [hnMeq]
    exact List.mem_map_of_mem _ hr
  have hoMmemEx : ∀ q ∈ oM, ∃ row ∈ SO,
      q = ((readRow row).rkey, readRow row) := by
    intro q hq
    rw [hoMeq] at hq
    obtain ⟨row, hrow, hfr⟩ := List.mem_map.mp hq
    exact ⟨row, hrow, hfr.symm⟩
  have hoMmem2 : ∀ row ∈ SO, ((readRow row).rkey, readRow row) ∈ oM := by
    intro row hrow
    rw [hoMeq]
    exact List.mem_map_of_mem _ hrow
  -- any-characterizations at the key (w, d, c)
  have hnAny : (nM.any (fun q => q.1 == (w, d, c))) = true ↔
      ∃ r ∈ SN, r.chunk = c := by
    constructor
    · intro h
      obtain ⟨p, hp, hpk⟩ := List.any_eq_true.mp h
      obtain ⟨r, hr, rfl⟩ := hnMmemEx p hp
      refine ⟨r, hr, ?_⟩
      have hkk : r.rkey = (w, d, c) := by simpa using hpk
      rw [hSNrkey r hr] at hkk
      exact (Prod.ext_iff.mp (Prod.ext_iff.mp hkk).2).2
    · rintro ⟨r, hr, hc⟩
      refine List.any_eq_true.mpr ⟨(r.rkey, r), hnMmem2 r hr, ?_⟩
      show (r.rkey == (w, d, c)) = true
      rw [hSNrkey r hr, hc]
      exact beq_self_eq_true _
  have hoAny : (oM.any (fun q => q.1 == (w, d, c))) = true ↔
      ∃ row ∈ SO, row.chunk = c := by
    constructor
    · intro h
      obtain ⟨q, hq, hqk⟩ := List.any_eq_true.mp h
      obtain ⟨row, hrow, rfl⟩ := hoMmemEx q hq
      refine ⟨row, hrow, ?_⟩
      have hkk : (readRow row).rkey = (w, d, c) := by simpa using hqk
      rw [readRow_rkey, hSOrkey row hrow] at hkk
      exact (Prod.ext_iff.mp (Prod.ext_iff.mp hkk).2).2
    · rintro ⟨row, hrow, hc⟩
      refine List.any_eq_true.mpr ⟨((readRow row).rkey, readRow row),
        hoMmem2 row hrow, ?_⟩
      show ((readRow row).rkey == (w, d, c)) = true
      rw [readRow_rkey, hSOrkey row hrow, hc]
      exact beq_self_eq_true _
  -- Nodup key lists of the three phase inputs
  have hnd1 : ((inOldOnlyOf nM oM).map Prod.fst).Nodup :=
    List.Nodup.sublist (List.Sublist.map _ (List.filter_sublist oM)) hoMkeys
  have hnd2 : ((inNewOnlyOf nM oM).map (fun p => p.2.rkey)).Nodup := by
    refine List.Nodup.sublist (List.Sublist.map _ (List.filter_sublist nM)) ?_
    rw [hnMeq, map_sndrkey_pair]
    exact hSNkeys
  have hnd3 : ((inBothOf nM oM).map Prod.fst).Nodup :=
    List.Nodup.sublist (List.Sublist.map _ (List.filter_sublist nM)) hnMkeys
  -- the three step functions are key-local
  have hstep1 : ∀ (s : DbState) (p : RKey × ReplicaInfo),
      p ∈ inOldOnlyOf nM oM → ∀ (w' d' : String) (c' : Nat),
      rowsFor (deleteReplicaInfoImpl s p.1.1 p.1.2.1 p.1.2.2) w' d' c' =
        if Prod.fst p = (w', d', c') then
          ((some ([] : List ReplicaRow)).getD (rowsFor s w' d' c'))
        else rowsFor s w' d' c' := by
    intro s p _ w' d' c'
    by_cases hk : p.1 = (w', d', c')
    · rw [if_pos hk]
      have e1 : p.1.1 = w' := by rw [hk]
      have e2 : p.1.2.1 = d' := by rw [hk]
      have e3 : p.1.2.2 = c' := by rw [hk]
      rw [e1, e2, e3, rowsFor_delete_same]
      rfl
    · rw [if_neg hk]
      exact rowsFor_delete_other s w' d' p.1.1 p.1.2.1 c' p.1.2.2
        (fun hcontra => hk (by rw [hcontra]))
  have hstep2 : ∀ (s : DbState) (p : RKey × ReplicaInfo),
      p ∈ inNewOnlyOf nM oM → ∀ (w' d' : String) (c' : Nat),
      rowsFor (saveReplicaInfoImpl s p.2) w' d' c' =
        if p.2.rkey = (w', d', c') then
          ((some (if p.2.status = ReplicaStatus.COMPLETE then [mkRow p.2]
            else [])).getD (rowsFor s w' d' c'))
        else rowsFor s w' d' c' := by
    intro s p _ w' d' c'
    by_cases hk : p.2.rkey = (w', d', c')
    · rw [if_pos hk, rowsFor_save_same s p.2 w' d' c' hk]
      rfl
    · rw [if_neg hk]
      exact rowsFor_save_other s p.2 w' d' c' (fun hcontra => hk hcontra.symm)
  have hstep3 : ∀ (s : DbState) (p : RKey × ReplicaInfo),
      p ∈ inBothOf nM oM → ∀ (w' d' : String) (c' : Nat),
      rowsFor
        (match oM.find? (fun q => q.1 == p.1) with
          | some q =>
            if replicaNe p.2 q.2 then
              saveReplicaInfoImpl
                (deleteReplicaInfoImpl s p.1.1 p.1.2.1 p.1.2.2) p.2
            else s
          | none => s) w' d' c' =
        if Prod.fst p = (w', d', c') then
          (Option.getD
            (match oM.find? (fun q : RKey × ReplicaInfo => q.1 == p.1) with
              | some q =>
                if replicaNe p.2 q.2 then
                  some (if p.2.status = ReplicaStatus.COMPLETE then
                    [mkRow p.2] else [])
                else none
              | none => none)
            (rowsFor s w' d' c'))
        else rowsFor s w' d' c' := by
    intro s p hp w' d' c'
    have hp2 : p ∈ nM.filter
        (fun p => oM.any (fun q => q.1 == p.1)) := hp
    have hpmem : p ∈ nM := List.mem_of_mem_filter hp2
    obtain ⟨r, hr, rfl⟩ := hnMmemEx p hpmem
    simp only []
    cases hfq : oM.find? (fun q => q.1 == r.rkey) with
    | none =>
      by_cases hk : r.rkey = (w', d', c') <;> simp [hk]
    | some q =>
      simp only []
      by_cases hne : replicaNe r q.2 = true
      · rw [if_pos hne, if_pos hne]
        by_cases hk : r.rkey = (w', d', c')
        · rw [if_pos hk]
          have hk2 : ReplicaInfo.rkey r = (w', d', c') := hk
          rw [rowsFor_save_same _ r w' d' c' hk2]
          rfl
        · rw [if_neg hk]
          rw [rowsFor_save_other _ r w' d' c' (fun hcontra => hk hcontra.symm)]
          exact rowsFor_delete_other s w' d' r.rkey.1 r.rkey.2.1 c'
            r.rkey.2.2 (fun hcontra => hk (by rw [hcontra]))
      · rw [if_neg hne, if_neg hne]
        by_cases hk : r.rkey = (w', d', c') <;> simp [hk]
  -- phase computations at the key (w, d, c)
  have hfold1 := rowsFor_foldl
    (fun s p => deleteReplicaInfoImpl s p.1.1 p.1.2.1 p.1.2.2) Prod.fst
    (fun _ => some []) (inOldOnlyOf nM oM) hstep1 hnd1 db w d c
  have hfold2 := rowsFor_foldl (fun s p => saveReplicaInfoImpl s p.2)
    (fun p => p.2.rkey)
    (fun p => some (if p.2.status = ReplicaStatus.COMPLETE then [mkRow p.2]
      else [])) (inNewOnlyOf nM oM) hstep2 hnd2
    (applyOldDeletes db (inOldOnlyOf nM oM)) w d c
  have hfold3 := rowsFor_foldl
    (fun s p =>
      match oM.find? (fun q => q.1 == p.1) with
      | some q =>
        if replicaNe p.2 q.2 then
          saveReplicaInfoImpl
            (deleteReplicaInfoImpl s p.1.1 p.1.2.1 p.1.2.2) p.2
        else s
      | none => s) Prod.fst
    (fun p =>
      match oM.find? (fun q : RKey × ReplicaInfo => q.1 == p.1) with
      | some q =>
        if replicaNe p.2 q.2 then
          some (if p.2.status = ReplicaStatus.COMPLETE then [mkRow p.2]
            else [])
        else none
      | none => none) (inBothOf nM oM) hstep3 hnd3
    (applyNewInserts (applyOldDeletes db (inOldOnlyOf nM oM))
      (inNewOnlyOf nM oM)) w d c
  have happly1 : applyOldDeletes db (inOldOnlyOf nM oM) =
      (inOldOnlyOf nM oM).foldl
        (fun s p => deleteReplicaInfoImpl s p.1.1 p.1.2.1 p.1.2.2) db := rfl
  have happly2 : applyNewInserts (applyOldDeletes db (inOldOnlyOf nM oM))
      (inNewOnlyOf nM oM) =
      (inNewOnlyOf nM oM).foldl (fun s p => saveReplicaInfoImpl s p.2)
        (applyOldDeletes db (inOldOnlyOf nM oM)) := rfl
  have happly3 : applyInBothUpdates
      (applyNewInserts (applyOldDeletes db (inOldOnlyOf nM oM))
        (inNewOnlyOf nM oM)) oM (inBothOf nM oM) =
      (inBothOf nM oM).foldl
        (fun s p =>
          match oM.find? (fun q => q.1 == p.1) with
          | some q =>
            if replicaNe p.2 q.2 then
              saveReplicaInfoImpl
                (deleteReplicaInfoImpl s p.1.1 p.1.2.1 p.1.2.2) p.2
            else s
          | none => s)
        (applyNewInserts (applyOldDeletes db (inOldOnlyOf nM oM))
          (inNewOnlyOf nM oM)) := rfl
  show (rowsFor (applyInBothUpdates
      (applyNewInserts (applyOldDeletes db (inOldOnlyOf nM oM))
        (inNewOnlyOf nM oM)) oM (inBothOf nM oM)) w d c).map
      (fun row => replicaView (readRow row)) =
    (SN.filter (fun r => r.chunk == c)).map replicaView
  by_cases hex : ∃ r ∈ SN, r.chunk = c
  · obtain ⟨rc, hrc, hrcc⟩ := hex
    have hrckey : rc.rkey = (w, d, c) := by rw [hSNrkey rc hrc, hrcc]
    have hrcst : rc.status = ReplicaStatus.COMPLETE := (hSNmem rc hrc).2.2
    have hRHS : SN.filter (fun x => x.chunk == c) = [rc] := by
      rw [← hrcc]
      exact filter_chunk_unique_info SN hchunks rc hrc
    have hnany : (nM.any (fun q => q.1 == (w, d, c))) = true :=
      hnAny.mpr ⟨rc, hrc, hrcc⟩
    by_cases hOld : ∃ row ∈ SO, row.chunk = c
    · -- the key is present on both sides: the in-both pass decides
      obtain ⟨row0, hrow0, hrow0c⟩ := hOld
      have hrow0key : row0.rkey = (w, d, c) := by
        rw [hSOrkey row0 hrow0, hrow0c]
      have hdbrows : rowsFor db w d c = [row0] := by
        rw [rowsFor_scope db w d c hd, ← hSOdef, ← hrow0c]
        exact filter_chunk_unique_row SO w d hSOmem hSOkeys row0 hrow0
      have hoany : (oM.any (fun q => q.1 == (w, d, c))) = true :=
        hoAny.mpr ⟨row0, hrow0, hrow0c⟩
      have hf1 : (inOldOnlyOf nM oM).find?
          (fun e => Prod.fst e == (w, d, c)) = none := by
        apply find?_none_key
        intro p hp hpk
        have hp2 : p ∈ oM.filter
            (fun p => !(nM.any (fun q => q.1 == p.1))) := hp
        have hflt0 := List.of_mem_filter hp2
        have hflt : (!(nM.any (fun q => q.1 == p.1))) = true := hflt0
        rw [show (Prod.fst p : RKey) = p.1 from rfl] at hpk
        rw [hpk, hnany] at hflt
        exact Bool.noConfusion hflt
      have h1 : rowsFor (applyOldDeletes db (inOldOnlyOf nM oM)) w d c =
          [row0] := by
        rw [happly1, hfold1, hf1, hdbrows]
      have hf2 : (inNewOnlyOf nM oM).find?
          (fun e => e.2.rkey == (w, d, c)) = none := by
        apply find?_none_key
        intro p hp hpk
        have hp2 : p ∈ nM.filter
            (fun p => !(oM.any (fun q => q.1 == p.1))) := hp
        have hpmem : p ∈ nM := List.mem_of_mem_filter hp2
        have hflt0 := List.of_mem_filter hp2
        have hflt : (!(oM.any (fun q => q.1 == p.1))) = true := hflt0
        obtain ⟨r, hr, rfl⟩ := hnMmemEx p hpmem
        have hk1 : r.rkey = (w, d, c) := hpk
        rw [show ((r.rkey, r).1 : RKey) = r.rkey from rfl] at hflt
        rw [hk1, hoany] at hflt
        exact Bool.noConfusion hflt
      have h2 : rowsFor (applyNewInserts
          (applyOldDeletes db (inOldOnlyOf nM oM)) (inNewOnlyOf nM oM))
          w d c = [row0] := by
        rw [happly2, hfold2, hf2, h1]
      -- the old grouped entry of the key
      have hq0mem : ((readRow row0).rkey, readRow row0) ∈ oM :=
        hoMmem2 row0 hrow0
      -- the in-both entry of the key
      have hbothmem : (rc.rkey, rc) ∈ inBothOf nM oM := by
        have hmem : (rc.rkey, rc) ∈ nM.filter
            (fun p => oM.any (fun q => q.1 == p.1)) :=
          List.mem_filter.mpr ⟨hnMmem2 rc hrc, by
            show (oM.any (fun q => q.1 == rc.rkey)) = true
            rw [hrckey]
            exact hoany⟩
        exact hmem
      have hf3 : (inBothOf nM oM).find?
          (fun e => Prod.fst e == (w, d, c)) = some (rc.rkey, rc) :=
        find?_unique_key2 Prod.fst (inBothOf nM oM) (rc.rkey, rc) (w, d, c)
          hnd3 hbothmem hrckey
      rw [happly3, hfold3, hf3]
      simp only []
      have holdq : oM.find?
          (fun q : RKey × ReplicaInfo => q.1 == rc.rkey) =
          some ((readRow row0).rkey, readRow row0) :=
        find?_unique_key2 Prod.fst oM ((readRow row0).rkey, readRow row0)
          rc.rkey hoMkeys hq0mem
          (by show (readRow row0).rkey = rc.rkey
              rw [readRow_rkey, hrow0key, hrckey])
      rw [holdq]
      simp only []
      by_cases hne : replicaNe rc (readRow row0) = true
      · rw [if_pos hne, hrcst, hRHS]
        simp [replicaView_read_mk]
      · rw [if_neg hne]
        rw [h2, hRHS]
        simp only [Option.getD_none, List.map_cons, List.map_nil]
        have hnef : replicaNe rc (readRow row0) = false :=
          Bool.eq_false_iff.mpr hne
        have hfe : rc.fileInfo.map fileCmpKey =
            (readRow row0).fileInfo.map fileCmpKey := by
          unfold replicaNe at hnef
          simpa using hnef
        have hview : replicaView (readRow row0) = replicaView rc := by
          unfold replicaView
          rw [← hfe]
          have hc1 : (readRow row0).chunk = c := hrow0c
          rw [hc1, hrcc]
        rw [hview]
    · -- the key is new-only: the insert pass decides
      have hdbrows : rowsFor db w d c = [] := by
        rw [rowsFor_scope db w d c hd, ← hSOdef]
        refine List.filter_eq_nil_iff.mpr ?_
        intro row hrow hkey
        exact hOld ⟨row, hrow, by simpa using hkey⟩
      have hoanyf : (oM.any (fun q => q.1 == (w, d, c))) = false := by
        rw [Bool.eq_false_iff]
        intro hcontra
        exact hOld (hoAny.mp hcontra)
      have hf1 : (inOldOnlyOf nM oM).find?
          (fun e => Prod.fst e == (w, d, c)) = none := by
        apply find?_none_key
        intro p hp hpk
        have hp2 : p ∈ oM.filter
            (fun p => !(nM.any (fun q => q.1 == p.1))) := hp
        have hpmem : p ∈ oM := List.mem_of_mem_filter hp2
        obtain ⟨row, hrow, rfl⟩ := hoMmemEx p hpmem
        have hk1 : (readRow row).rkey = (w, d, c) := hpk
        rw [readRow_rkey, hSOrkey row hrow] at hk1
        exact hOld ⟨row, hrow, (Prod.ext_iff.mp (Prod.ext_iff.mp hk1).2).2⟩
      have h1 : rowsFor (applyOldDeletes db (inOldOnlyOf nM oM)) w d c =
          [] := by
        rw [happly1, hfold1, hf1, hdbrows]
      have hinew : (rc.rkey, rc) ∈ inNewOnlyOf nM oM := by
        have hmem : (rc.rkey, rc) ∈ nM.filter
            (fun p => !(oM.any (fun q => q.1 == p.1))) :=
          List.mem_filter.mpr ⟨hnMmem2 rc hrc, by
            show (!(oM.any (fun q => q.1 == rc.rkey))) = true
            rw [hrckey, hoanyf]
            rfl⟩
        exact hmem
      have hf2 : (inNewOnlyOf nM oM).find?
          (fun e => e.2.rkey == (w, d, c)) = some (rc.rkey, rc) :=
        find?_unique_key2 (fun p : RKey × ReplicaInfo => p.2.rkey)
          (inNewOnlyOf nM oM) (rc.rkey, rc) (w, d, c) hnd2 hinew hrckey
      have h2 : rowsFor (applyNewInserts
          (applyOldDeletes db (inOldOnlyOf nM oM)) (inNewOnlyOf nM oM))
          w d c = [mkRow rc] := by
        rw [happly2, hfold2, hf2]
        simp only []
        rw [hrcst]
        simp
      have hf3 : (inBothOf nM oM).find?
          (fun e => Prod.fst e == (w, d, c)) = none := by
        apply find?_none_key
        intro p hp hpk
        have hp2 : p ∈ nM.filter
            (fun p => oM.any (fun q => q.1 == p.1)) := hp
        have hflt0 := List.of_mem_filter hp2
        have hflt : (oM.any (fun q => q.1 == p.1)) = true := hflt0
        rw [show (Prod.fst p : RKey) = p.1 from rfl] at hpk
        rw [hpk, hoanyf] at hflt
        exact Bool.noConfusion hflt
      rw [happly3, hfold3, hf3, h2, hRHS]
      simp only [List.map_cons, List.map_nil]
      rw [replicaView_read_mk]
  · -- no new replica of chunk c: the key is removed (or was never there)
    have hRHS : SN.filter (fun x => x.chunk == c) = [] := by
      refine List.filter_eq_nil_iff.mpr ?_
      intro r hr hkey
      exact hex ⟨r, hr, by simpa using hkey⟩
    have hnanyf : (nM.any (fun q => q.1 == (w, d, c))) = false := by
      rw [Bool.eq_false_iff]
      intro hcontra
      exact hex (hnAny.mp hcontra)
    have hf2 : (inNewOnlyOf nM oM).find?
        (fun e => e.2.rkey == (w, d, c)) = none := by
      apply find?_none_key
      intro p hp hpk
      have hp2 : p ∈ nM.filter
          (fun p => !(oM.any (fun q => q.1 == p.1))) := hp
      have hpmem : p ∈ nM := List.mem_of_mem_filter hp2
      obtain ⟨r, hr, rfl⟩ := hnMmemEx p hpmem
      have hk1 : r.rkey = (w, d, c) := hpk
      rw [hSNrkey r hr] at hk1
      exact hex ⟨r, hr, (Prod.ext_iff.mp (Prod.ext_iff.mp hk1).2).2⟩
    have hf3 : (inBothOf nM oM).find?
        (fun e => Prod.fst e == (w, d, c)) = none := by
      apply find?_none_key
      intro p hp hpk
      have hp2 : p ∈ nM.filter
          (fun p => oM.any (fun q => q.1 == p.1)) := hp
      have hpmem : p ∈ nM := List.mem_of_mem_filter hp2
      obtain ⟨r, hr, rfl⟩ := hnMmemEx p hpmem
      have hk1 : r.rkey = (w, d, c) := hpk
      rw [hSNrkey r hr] at hk1
      exact hex ⟨r, hr, (Prod.ext_iff.mp (Prod.ext_iff.mp hk1).2).2⟩
    have h2eq : rowsFor (applyNewInserts
        (applyOldDeletes db (inOldOnlyOf nM oM)) (inNewOnlyOf nM oM))
        w d c = rowsFor (applyOldDeletes db (inOldOnlyOf nM oM)) w d c := by
      rw [happly2, hfold2, hf2]
    rw [happly3, hfold3, hf3, h2eq, hRHS]
    by_cases hOld : ∃ row ∈ SO, row.chunk = c
    · obtain ⟨row0, hrow0, hrow0c⟩ := hOld
      have hioomem : ((readRow row0).rkey, readRow row0) ∈
          inOldOnlyOf nM oM := by
        have hmem : ((readRow row0).rkey, readRow row0) ∈ oM.filter
            (fun p => !(nM.any (fun q => q.1 == p.1))) :=
          List.mem_filter.mpr ⟨hoMmem2 row0 hrow0, by
            show (!(nM.any (fun q => q.1 == (readRow row0).rkey))) = true
            rw [readRow_rkey, hSOrkey row0 hrow0, hrow0c, hnanyf]
            rfl⟩
        exact hmem
      have hkey1 : Prod.fst (((readRow row0).rkey, readRow row0) :
          RKey × ReplicaInfo) = (w, d, c) := by
        show (readRow row0).rkey = (w, d, c)
        rw [readRow_rkey, hSOrkey row0 hrow0, hrow0c]
      have hf1 : (inOldOnlyOf nM oM).find?
          (fun e => Prod.fst e == (w, d, c)) =
          some ((readRow row0).rkey, readRow row0) :=
        find?_unique_key2 Prod.fst (inOldOnlyOf nM oM)
          ((readRow row0).rkey, readRow row0) (w, d, c) hnd1 hioomem hkey1
      rw [happly1, hfold1, hf1]
      rfl
    · have hdbrows : rowsFor db w d c = [] := by
        rw [rowsFor_scope db w d c hd, ← hSOdef]
        refine List.filter_eq_nil_iff.mpr ?_
        intro row hrow hkey
        exact hOld ⟨row, hrow, by simpa using hkey⟩
      have hf1 : (inOldOnlyOf nM oM).find?
          (fun e => Prod.fst e == (w, d, c)) = none := by
        apply find?_none_key
        intro p hp hpk
        have hp2 : p ∈ oM.filter
            (fun p => !(nM.any (fun q => q.1 == p.1))) := hp
        have hpmem : p ∈ oM := List.mem_of_mem_filter hp2
        obtain ⟨row, hrow, rfl⟩ := hoMmemEx p hpmem
        have hk1 : (readRow row).rkey = (w, d, c) := hpk
        rw [readRow_rkey, hSOrkey row hrow] at hk1
        exact hOld ⟨row, hrow, (Prod.ext_iff.mp (Prod.ext_iff.mp hk1).2).2⟩
      rw [happly1, hfold1, hf1, hdbrows]
      rfl

/-- Claim C1, counterexample: saving a collection whose single in-scope
replica has status INCOMPLETE leaves the persisted scope empty — the
replica is deleted rather than inserted ("Try inserting if the replica is
complete. Delete otherwise.") — so a subsequent `findWorkerReplicas` does
not return the collection, contradicting the claim for collections with
non-COMPLETE replicas. -/
theorem saveReplicaInfoCollection_incomplete_counterexample :
    findWorkerReplicasImpl
        (saveReplicaInfoCollection [] "w1" "db1" [c1IncompleteReplica])
        "w1" "db1" = [] ∧
      [c1IncompleteReplica].filter
          (fun r => r.worker == "w1" && r.database == "db1") =
        [c1IncompleteReplica] := by
  exact ⟨rfl, rfl⟩

/-- Claim C1, amended: when every in-scope replica of the new collection
has status COMPLETE, the scoped chunks are pairwise distinct and the
persisted keys are unique, `saveReplicaInfoCollection` synchronises the
persisted scope with the collection: for every chunk, reading the scope
back through `findWorkerReplicas` yields exactly the in-scope new replicas
of that chunk, compared on chunk number and on the file lists keyed by
name, size, mtime and checksum (status reads back as COMPLETE and
`verifyTime` of an unchanged replica is not refreshed, so those fields are
outside the comparison). -/
theorem saveReplicaInfoCollection_complete_sync
    (db : DbState) (w d : String) (coll : List ReplicaInfo)
    (hd : d ≠ "")
    (hdb : ((db.map ReplicaRow.rkey).Nodup))
    (hstatus : ∀ r ∈ coll, r.worker = w → r.database = d →
      r.status = ReplicaStatus.COMPLETE)
    (hchunks : ((((coll.filter
        (fun r => r.worker == w && r.database == d)).map
      ReplicaInfo.chunk)).Nodup))
    (c : Nat) :
    ((findWorkerReplicasImpl (saveReplicaInfoCollection db w d coll)
          w d).filter (fun r => r.chunk == c)).map replicaView =
      (((coll.filter (fun r => r.worker == w && r.database == d)).filter
          (fun r => r.chunk == c)).map replicaView) := by
  have h := saveColl_view db w d coll
    (coll.filter (fun r => r.worker == w && r.database == d))
    (db.filter (findScopeRow w d)) rfl rfl hd hdb hstatus hchunks c
  rw [saveReplicaInfoCollection, findWorkerReplicasImpl,
    filter_chunk_map_read, ← rowsFor_scope _ _ _ _ hd, List.map_map]
  exact h

/-- Claim C1, amended, witness: the amended theorem applied at the empty
database and the one-replica COMPLETE collection. -/
theorem saveReplicaInfoCollection_complete_sync_witness :
    "db1" ≠ "" ∧
      ((([] : DbState).map ReplicaRow.rkey).Nodup) ∧
      (∀ r ∈ [c1CompleteReplica], r.worker = "w1" → r.database = "db1" →
        r.status = ReplicaStatus.COMPLETE) ∧
      (((([c1CompleteReplica].filter
          (fun r => r.worker == "w1" && r.database == "db1")).map
        ReplicaInfo.chunk)).Nodup) ∧
      ((findWorkerReplicasImpl
          (saveReplicaInfoCollection [] "w1" "db1" [c1CompleteReplica])
          "w1" "db1").filter (fun r => r.chunk == 7)).map replicaView =
        ((([c1CompleteReplica].filter
            (fun r => r.worker == "w1" && r.database == "db1")).filter
          (fun r => r.chunk == 7)).map replicaView) := by
  refine ⟨by decide, by decide, by decide, by decide, ?_⟩
  exact saveReplicaInfoCollection_complete_sync [] "w1" "db1"
    [c1CompleteReplica] (by decide) (by decide) (by decide) (by decide) 7

end Qserv
